import Mathlib

/-!
# Drink Master service worker: cache-strategy engine

A shallow embedding of `src/sw.js` (the install, activate, fetch and message
handlers and the three retrieval strategies) and of `src/api.js` (the two lookup
functions), together with theorems about them.

Modelling conventions.

* `caches` (the `CacheStorage` of the worker) is an ordered list of named
  caches; a cache is an ordered list of `(request URL, response)` entries.
  `caches.open`, `caches.match`, `caches.keys`, `caches.delete` and `cache.match`
  always settle successfully; `cache.put` may be refused by the store (the source
  itself attaches a `.catch` to it), which is decided by `Env.putAccepted`.
* The network is the function `Env.fetch`: it either yields a response (of any
  status) or fails with an error.
* Asynchronous code is run to quiescence: the world returned by a handler is the
  one reached once every promise it started (detached writes included) has
  settled.
* Every store operation and every network fetch is appended to `World.log`, so
  that "the store is not consulted" and "no network call is made" are statements
  about the log.
* `cache.addAll` is all or nothing: it rejects, and writes nothing, when a fetch
  fails, when an answer is not ok, when two requests of the batch have the same
  key, or when the store refuses a write.
* The values `src/api.js` handles are untyped: a parsed body is any JSON value,
  reading a property of `null` throws, and only arrays and strings can be iterated.
-/

namespace DrinkMaster

/-! ## Strings -/

/-- `String.prototype.includes`: the needle occurs somewhere in the haystack. -/
def includesChars (needle : List Char) : List Char → Bool
  | [] => needle.isEmpty
  | c :: cs => needle.isPrefixOf (c :: cs) || includesChars needle cs

/-- `s.includes(needle)` on strings. -/
def includes (s needle : String) : Bool := includesChars needle.toList s.toList

/-- Case-insensitive test `ext$` of a regular expression with the `i` flag, for a
lower-case ASCII `ext`: the haystack, lower-cased, ends with `ext`. -/
def endsWithCI (s ext : String) : Bool :=
  ext.toList.reverse.isPrefixOf (s.toList.map Char.toLower).reverse

/-- The test `/\.(jpg|jpeg|png|gif|webp|svg)$/i`. -/
def matchesImageExt (pathname : String) : Bool :=
  [".jpg", ".jpeg", ".png", ".gif", ".webp", ".svg"].any (endsWithCI pathname)

/-- The test `/\.(html|css|js|json)$/i`. -/
def matchesStaticExt (pathname : String) : Bool :=
  [".html", ".css", ".js", ".json"].any (endsWithCI pathname)

/-! ## Data model -/

/-- A captured network response. -/
structure Response where
  status : Nat
  statusText : String
  headers : List (String × String)
  body : String
deriving DecidableEq, Repr

/-- `response.ok`: the status is in the range 200..299. -/
def Response.ok (r : Response) : Bool := decide (200 ≤ r.status) && decide (r.status ≤ 299)

/-- The parts of `new URL(request.url)` the worker looks at. -/
structure URL where
  href : String
  origin : String
  hostname : String
  pathname : String
deriving DecidableEq, Repr

/-- The parts of a `Request` the worker looks at; `accept` is
`request.headers.get('accept')`. -/
structure Request where
  method : String
  url : URL
  mode : String
  destination : String
  accept : Option String
deriving DecidableEq, Repr

/-- The key under which a request is stored in a cache: its URL. -/
def Request.key (request : Request) : String := request.url.href

/-- One cache: its request/response list, oldest entry first. -/
abbrev Cache := List (String × Response)

/-- The name-to-cache map of `caches`, in creation order. -/
abbrev CacheStorage := List (String × Cache)

def CACHE_NAME : String := "drink-master-v5"
def RUNTIME_CACHE : String := "drink-master-runtime-v5"
def API_CACHE : String := "drink-master-api-v5"

/-! ## The store -/

/-- `cache.match(key)`: the first entry stored under the key. -/
def cacheMatch (c : Cache) (key : String) : Option Response :=
  match c with
  | [] => none
  | (k, r) :: rest => if k = key then some r else cacheMatch rest key

/-- `cache.put(key, response)`: entries under the key are removed and the new one
is appended. -/
def cachePut (c : Cache) (key : String) (r : Response) : Cache :=
  c.filter (fun e => decide (e.1 ≠ key)) ++ [(key, r)]

/-- The cache registered under a name, if any. -/
def cachesGet (s : CacheStorage) (name : String) : Option Cache :=
  match s with
  | [] => none
  | (n, c) :: rest => if n = name then some c else cachesGet rest name

/-- `caches.has(name)`. -/
def cachesHas (s : CacheStorage) (name : String) : Bool := (cachesGet s name).isSome

/-- `caches.open(name)`: the cache is created, empty, when it does not exist. -/
def cachesOpen (s : CacheStorage) (name : String) : CacheStorage :=
  if cachesHas s name then s else s ++ [(name, [])]

/-- `caches.match(key)` without a cache name: the caches are searched in creation
order and the first hit is the result. -/
def cachesMatch (s : CacheStorage) (key : String) : Option Response :=
  match s with
  | [] => none
  | (_, c) :: rest =>
    match cacheMatch c key with
    | some r => some r
    | none => cachesMatch rest key

/-- `caches.match(key, { cacheName })`: only the named cache is searched, and a
missing cache gives `undefined`. -/
def cachesMatchIn (s : CacheStorage) (name key : String) : Option Response :=
  match cachesGet s name with
  | some c => cacheMatch c key
  | none => none

/-- The effect on the store of an accepted `put` on the cache of that name. -/
def cachesPut (s : CacheStorage) (name key : String) (r : Response) : CacheStorage :=
  s.map (fun e => if e.1 = name then (e.1, cachePut e.2 key r) else e)

/-- `caches.delete(name)`. -/
def cachesDelete (s : CacheStorage) (name : String) : CacheStorage :=
  s.filter (fun e => decide (e.1 ≠ name))

/-- `caches.keys()`. -/
def cachesKeys (s : CacheStorage) : List String := s.map Prod.fst

/-! ## Worlds, effects and outcomes -/

/-- What the worker did to its surroundings. -/
inductive Event where
  | fetch (url : String)
  | cachesOpen (name : String)
  | cachesMatch (key : String)
  | cachesMatchIn (name key : String)
  | cacheMatch (name key : String)
  | cachePut (name key : String)
  | cachesDelete (name : String)
  | cachesKeys
deriving DecidableEq, Repr

/-- Is the event a network fetch? -/
def Event.isFetch : Event → Bool
  | .fetch _ => true
  | _ => false

/-- The store and the record of everything done so far. -/
structure World where
  caches : CacheStorage
  log : List Event
deriving DecidableEq, Repr

/-- Number of network fetches made so far. -/
def World.fetchCount (w : World) : Nat := (w.log.filter Event.isFetch).length

/-- The surroundings of the worker: its own origin, the network, and the store's
verdict on each write. -/
structure Env where
  origin : String
  fetch : Request → Except String Response
  putAccepted : String → String → Response → Bool

/-- How a promise for a response settles. -/
inductive Settled where
  | resolved (r : Response)
  | undefined
  | rejected (error : String)
deriving DecidableEq, Repr

/-- What the fetch handler does with the event. -/
inductive Intercept where
  | passThrough
  | respondWith (s : Settled)
deriving DecidableEq, Repr

/-- Record an event. -/
def World.emit (w : World) (e : Event) : World := { w with log := w.log ++ [e] }

/-- `await caches.open(name)`. -/
def World.open (w : World) (name : String) : World :=
  { caches := cachesOpen w.caches name, log := w.log ++ [Event.cachesOpen name] }

/-- `cache.put(key, response)` on the cache opened under `name`, run to completion:
the entry is written when the store accepts the write, and nothing changes when it
refuses. -/
def World.put (env : Env) (w : World) (name key : String) (r : Response) : World :=
  { caches := if env.putAccepted name key r then cachesPut w.caches name key r else w.caches,
    log := w.log ++ [Event.cachePut name key] }

/-- `caches.delete(name)`. -/
def World.delete (w : World) (name : String) : World :=
  { caches := cachesDelete w.caches name, log := w.log ++ [Event.cachesDelete name] }

/-- The key of `'/index.html'`, resolved against the worker's own origin. -/
def indexKey (env : Env) : String := env.origin ++ "/index.html"

/-! ## The retrieval strategies -/

/-- The test `request.headers.get('accept') && request.headers.get('accept').includes('text/html')`. -/
def acceptsHtml (request : Request) : Bool :=
  match request.accept with
  | none => false
  | some a => decide (a ≠ "") && includes a "text/html"

/-- The test `url.pathname === '/' || url.pathname === ''`. -/
def isRootPath (url : URL) : Bool := decide (url.pathname = "/") || decide (url.pathname = "")

/-- The function `networkFirst(request)`. -/
def networkFirst (env : Env) (request : Request) (w : World) : Settled × World :=
  let w1 := w.emit (Event.fetch request.key)
  match env.fetch request with
  | Except.ok networkResponse =>
    if networkResponse.ok then
      let w2 := w1.open API_CACHE
      let w3 := World.put env w2 API_CACHE request.key networkResponse
      (Settled.resolved networkResponse, w3)
    else
      (Settled.resolved networkResponse, w1)
  | Except.error error =>
    let w2 := w1.emit (Event.cachesMatchIn API_CACHE request.key)
    match cachesMatchIn w.caches API_CACHE request.key with
    | some cachedResponse => (Settled.resolved cachedResponse, w2)
    | none =>
      let w3 := w2.emit (Event.cachesMatchIn RUNTIME_CACHE request.key)
      match cachesMatchIn w.caches RUNTIME_CACHE request.key with
      | some runtimeCached => (Settled.resolved runtimeCached, w3)
      | none => (Settled.rejected error, w3)

/-- The `catch` branch of `cacheFirst`, entered in world `w` with the network
failure `error`. -/
def cacheFirstCatch (env : Env) (request : Request) (error : String) (w : World) :
    Settled × World :=
  let afterHtml : Option Response × World :=
    if acceptsHtml request then
      (cachesMatch w.caches (indexKey env), w.emit (Event.cachesMatch (indexKey env)))
    else (none, w)
  match afterHtml with
  | (some indexCache, w1) => (Settled.resolved indexCache, w1)
  | (none, w1) =>
    if isRootPath request.url then
      let w2 := w1.emit (Event.cachesMatch (indexKey env))
      match cachesMatch w1.caches (indexKey env) with
      | some indexCache => (Settled.resolved indexCache, w2)
      | none => (Settled.rejected error, w2)
    else (Settled.rejected error, w1)

/-- The function `cacheFirst(request)`. -/
def cacheFirst (env : Env) (request : Request) (w : World) : Settled × World :=
  let w1 := w.emit (Event.cachesMatch request.key)
  match cachesMatch w.caches request.key with
  | some cachedResponse => (Settled.resolved cachedResponse, w1)
  | none =>
    let w2 := w1.emit (Event.fetch request.key)
    match env.fetch request with
    | Except.ok networkResponse =>
      if networkResponse.ok then
        let w3 := w2.open CACHE_NAME
        let w4 := World.put env w3 CACHE_NAME request.key networkResponse
        (Settled.resolved networkResponse, w4)
      else
        (Settled.resolved networkResponse, w2)
    | Except.error error => cacheFirstCatch env request error w2

/-- The function `staleWhileRevalidate(request)`. The promise `fetchPromise` ends
in `.catch(() => {})`, so a failed fetch makes it resolve with `undefined`. -/
def staleWhileRevalidate (env : Env) (request : Request) (w : World) : Settled × World :=
  let w1 := w.open RUNTIME_CACHE
  let cachedResponse := cachesMatchIn w1.caches RUNTIME_CACHE request.key
  let w2 := w1.emit (Event.cacheMatch RUNTIME_CACHE request.key)
  let w3 := w2.emit (Event.fetch request.key)
  let fetchPromise : Settled × World :=
    match env.fetch request with
    | Except.ok networkResponse =>
      if networkResponse.ok then
        (Settled.resolved networkResponse,
          World.put env w3 RUNTIME_CACHE request.key networkResponse)
      else (Settled.resolved networkResponse, w3)
    | Except.error _ => (Settled.undefined, w3)
  match cachedResponse with
  | some r => (Settled.resolved r, fetchPromise.2)
  | none => fetchPromise

/-- The response synthesised by the navigation branch when nothing else is left. -/
def offlineResponse : Response :=
  { status := 503
    statusText := "Service Unavailable"
    headers := [("Content-Type", "text/html")]
    body := "Offline - Check your internet connection" }

/-- The promise handed to `respondWith` by the navigation branch of the fetch
handler. -/
def navigate (env : Env) (request : Request) (w : World) : Settled × World :=
  let w1 := w.emit (Event.cachesMatch (indexKey env))
  match cachesMatch w.caches (indexKey env) with
  | some cachedResponse => (Settled.resolved cachedResponse, w1)
  | none =>
    let w2 := w1.emit (Event.fetch request.key)
    match env.fetch request with
    | Except.ok networkResponse =>
      if networkResponse.ok then
        let w3 := w2.open CACHE_NAME
        let w4 := World.put env w3 CACHE_NAME (indexKey env) networkResponse
        (Settled.resolved networkResponse, w4)
      else
        (Settled.resolved networkResponse, w2)
    | Except.error _ =>
      let w3 := w2.emit (Event.cachesMatch (indexKey env))
      match cachesMatch w2.caches (indexKey env) with
      | some fallbackResponse => (Settled.resolved fallbackResponse, w3)
      | none => (Settled.resolved offlineResponse, w3)

/-! ## The fetch handler -/

/-- The handling paths of the fetch handler. -/
inductive Route where
  | navigation
  | networkFirst
  | staleWhileRevalidate
  | cacheFirst
deriving DecidableEq, Repr

/-- The condition of the navigation branch. -/
def isNavigation (request : Request) : Bool :=
  decide (request.mode = "navigate") ||
    (decide (request.method = "GET") && acceptsHtml request)

/-- The chain of tests of the fetch handler: `none` when the handler returns
without calling `respondWith`, otherwise the path it hands the request to. -/
def route (env : Env) (request : Request) : Option Route :=
  let url := request.url
  if request.method ≠ "GET" then none
  else if url.origin ≠ env.origin ∧ includes url.hostname "thecocktaildb.com" = false
      ∧ includes url.hostname "allorigins.win" = false then none
  else if isNavigation request then some Route.navigation
  else if includes url.hostname "thecocktaildb.com" || includes url.hostname "api.allorigins.win"
      || includes url.pathname "/api/" then some Route.networkFirst
  else if decide (request.destination = "image") || matchesImageExt url.pathname then
    some Route.staleWhileRevalidate
  else if decide (request.destination = "document") || decide (request.destination = "style")
      || decide (request.destination = "script") || matchesStaticExt url.pathname
      || isRootPath url then
    some Route.cacheFirst
  else some Route.networkFirst

/-- The promise each path hands to `respondWith`. -/
def Route.run (r : Route) (env : Env) (request : Request) (w : World) : Settled × World :=
  match r with
  | Route.navigation => navigate env request w
  | Route.networkFirst => DrinkMaster.networkFirst env request w
  | Route.staleWhileRevalidate => DrinkMaster.staleWhileRevalidate env request w
  | Route.cacheFirst => DrinkMaster.cacheFirst env request w

/-- The `fetch` event listener. -/
def onFetch (env : Env) (request : Request) (w : World) : Intercept × World :=
  match route env request with
  | none => (Intercept.passThrough, w)
  | some r => (Intercept.respondWith (r.run env request w).1, (r.run env request w).2)

/-! ## The activate handler -/

/-- The test of the activate handler: the name is none of the three current ones. -/
def isStale (cacheName : String) : Bool :=
  decide (cacheName ≠ CACHE_NAME) && decide (cacheName ≠ RUNTIME_CACHE)
    && decide (cacheName ≠ API_CACHE)

/-- The body of `cacheNames.map(...)` for one name. -/
def activateStep (w : World) (cacheName : String) : World :=
  if isStale cacheName then w.delete cacheName else w

/-- The `activate` event listener, once the promise given to `waitUntil` has
settled. -/
def activate (w : World) : World :=
  let cacheNames := cachesKeys w.caches
  cacheNames.foldl activateStep (w.emit Event.cachesKeys)

end DrinkMaster

namespace DrinkMaster

/-! ## The routing rules as the specification words them -/

/-- The accept header contains `text/html`. -/
def acceptContainsHtml (request : Request) : Bool :=
  match request.accept with
  | none => false
  | some a => includes a "text/html"

/-- The rule table of the specification for a GET request to the application's own
origin: each rule is a condition and the handling path it selects. The root path is
the path `/`, which a URL may also leave empty. -/
def specRules : List ((Request → Bool) × Route) :=
  [ (fun r => decide (r.mode = "navigate") || acceptContainsHtml r, Route.navigation),
    (fun r => includes r.url.pathname "/api/" || includes r.url.hostname "thecocktaildb.com"
        || includes r.url.hostname "api.allorigins.win", Route.networkFirst),
    (fun r => decide (r.destination = "image") || matchesImageExt r.url.pathname,
      Route.staleWhileRevalidate),
    (fun r => decide (r.destination ∈ ["document", "style", "script"])
        || matchesStaticExt r.url.pathname || isRootPath r.url, Route.cacheFirst) ]

/-- First matching rule wins; when no rule matches the request goes to
`networkFirst`. -/
def specRoute (request : Request) : Route :=
  match specRules.find? (fun rule => rule.1 request) with
  | some rule => rule.2
  | none => Route.networkFirst

/-! ## Sample surroundings used by the concrete instances -/

/-- A network that is down. -/
def offlineEnv : Env :=
  { origin := "https://app.example"
    fetch := fun _ => Except.error "offline"
    putAccepted := fun _ _ _ => true }

/-- A same-origin GET request for a path, with no accept header. -/
def getRequest (pathname destination : String) : Request :=
  { method := "GET"
    url := { href := "https://app.example" ++ pathname
             origin := "https://app.example"
             hostname := "app.example"
             pathname := pathname }
    mode := "cors"
    destination := destination
    accept := none }

/-- The world before anything was stored or done. -/
def emptyWorld : World := { caches := [], log := [] }

/-- A GET request to a host of the relay's domain other than `api.allorigins.win`. -/
def relayMirrorRequest : Request :=
  { method := "GET"
    url := { href := "https://allorigins.win/logo"
             origin := "https://allorigins.win"
             hostname := "allorigins.win"
             pathname := "/logo" }
    mode := "cors"
    destination := ""
    accept := none }

/-- A response with an acceptable status. -/
def liveResponse : Response :=
  { status := 200, statusText := "OK", headers := [], body := "fresh" }

/-- An older response, as found in a cache. -/
def staleResponse : Response :=
  { status := 200, statusText := "OK", headers := [], body := "stale" }

/-- A partial-content response: its status is in the ok range, and the Cache API
refuses to store it. -/
def partialResponse : Response :=
  { status := 206, statusText := "Partial Content", headers := [], body := "fre" }

/-- A network that answers every request with `liveResponse`, and a store that
accepts every write except that of a partial response. -/
def onlineEnv : Env :=
  { origin := "https://app.example"
    fetch := fun _ => Except.ok liveResponse
    putAccepted := fun _ _ r => decide (r.status ≠ 206) }

/-- A network that answers every request with `partialResponse`, with the same
store. -/
def partialEnv : Env :=
  { origin := "https://app.example"
    fetch := fun _ => Except.ok partialResponse
    putAccepted := fun _ _ r => decide (r.status ≠ 206) }

/-- A world whose static cache is empty and whose runtime cache holds a stale
entry for `/app.js`. -/
def runtimeOnlyWorld : World :=
  { caches := [(CACHE_NAME, []),
               (RUNTIME_CACHE, [("https://app.example/app.js", staleResponse)])]
    log := [] }

/-- A world whose runtime cache holds a stale entry for `/logo.png`. -/
def cachedImageWorld : World :=
  { caches := [(RUNTIME_CACHE, [("https://app.example/logo.png", staleResponse)])]
    log := [] }

/-- A navigation to the application's index document: a GET with mode `navigate`
that accepts HTML. -/
def indexRequest : Request :=
  { method := "GET"
    url := { href := "https://app.example/index.html"
             origin := "https://app.example"
             hostname := "app.example"
             pathname := "/index.html" }
    mode := "navigate"
    destination := "document"
    accept := some "text/html,application/xhtml+xml" }

/-- A world whose static cache is empty and whose runtime cache holds an entry for
`/index.html`. -/
def runtimeIndexWorld : World :=
  { caches := [(CACHE_NAME, []),
               (RUNTIME_CACHE, [("https://app.example/index.html", staleResponse)])]
    log := [] }

/-- A world in which the runtime cache was created before the static cache and
both hold an entry for `/index.html`. -/
def shadowedIndexWorld : World :=
  { caches := [(RUNTIME_CACHE, [("https://app.example/index.html", staleResponse)]),
               (CACHE_NAME, [("https://app.example/index.html", liveResponse)])]
    log := [] }

/-- A world whose static cache holds the index document. -/
def installedWorld : World :=
  { caches := [(CACHE_NAME, [("https://app.example/index.html", liveResponse)])]
    log := [] }

/-- A navigation to another page of the application. -/
def aboutRequest : Request :=
  { method := "GET"
    url := { href := "https://app.example/about"
             origin := "https://app.example"
             hostname := "app.example"
             pathname := "/about" }
    mode := "navigate"
    destination := "document"
    accept := some "text/html" }

/-- A response with an unacceptable status. -/
def notFoundResponse : Response :=
  { status := 404, statusText := "Not Found", headers := [], body := "" }

/-- A network that answers every request with `notFoundResponse`. -/
def notFoundEnv : Env :=
  { origin := "https://app.example"
    fetch := fun _ => Except.ok notFoundResponse
    putAccepted := fun _ _ _ => true }

/-! ## Batches: `cache.addAll`, the install and message handlers -/

/-- The assets cached at installation. -/
def STATIC_CACHE_URLS : List String :=
  [ "/", "/index.html", "/styles.css", "/app.js", "/database.js", "/api.js", "/state.js",
    "/views.js", "/filters.js", "/native-features.js", "/manifest.json",
    "/icons/icon-72x72.svg", "/icons/icon-96x96.svg", "/icons/icon-128x128.svg",
    "/icons/icon-144x144.svg", "/icons/icon-152x152.svg", "/icons/icon-192x192.svg",
    "/icons/icon-384x384.svg", "/icons/icon-512x512.svg" ]

/-- How a promise without a value of interest settles. -/
inductive Completion where
  | fulfilled
  | rejected
deriving DecidableEq, Repr

/-- The request `cache.add` and `cache.addAll` build from a URL string: a plain GET
for the URL as `resolve` parses it against the worker's location. -/
def requestFor (resolve : String → URL) (url : String) : Request :=
  { method := "GET", url := resolve url, mode := "cors", destination := "", accept := none }

/-- The responses to a batch of requests, with their keys: there is none as soon as
one fetch fails or one answer has a status that is not ok. -/
def fetchBatch (env : Env) (requests : List Request) : Option (List (String × Response)) :=
  match requests with
  | [] => some []
  | request :: rest =>
    match env.fetch request with
    | Except.ok r =>
      if r.ok then
        match fetchBatch env rest with
        | some entries => some ((request.key, r) :: entries)
        | none => none
      else none
    | Except.error _ => none

/-- The store after the writes of a batch into the cache of that name. -/
def cachesPutAll (s : CacheStorage) (name : String) (entries : List (String × Response)) :
    CacheStorage :=
  entries.foldl (fun acc e => cachesPut acc name e.1 e.2) s

/-- `cache.addAll(urls)` on the cache opened under `name`. Every URL is fetched; the
promise is rejected and nothing is written when a fetch fails, when an answer is not
ok, when two requests of the batch have the same key, or when the store refuses one
of the writes; otherwise all the responses are written. -/
def addAll (env : Env) (resolve : String → URL) (name : String) (urls : List String)
    (w : World) : Completion × World :=
  let requests := urls.map (requestFor resolve)
  let w1 : World := { caches := w.caches,
                      log := w.log ++ requests.map (fun q => Event.fetch q.key) }
  match fetchBatch env requests with
  | none => (Completion.rejected, w1)
  | some entries =>
    if decide ((entries.map Prod.fst).Nodup)
        && entries.all (fun e => env.putAccepted name e.1 e.2) then
      (Completion.fulfilled,
        { caches := cachesPutAll w1.caches name entries,
          log := w1.log ++ entries.map (fun e => Event.cachePut name e.1) })
    else (Completion.rejected, w1)

/-- `cache.add(url)`, which is `cache.addAll([url])`. -/
def cacheAdd (env : Env) (resolve : String → URL) (name : String) (url : String)
    (w : World) : Completion × World :=
  addAll env resolve name [url] w

/-- The `install` event listener: how the promise given to `waitUntil` settles, and
the world then. Both `catch` handlers return normally, so a rejected batch and a
rejected `cache.add` end in a fulfilled promise. -/
def install (env : Env) (resolve : String → URL) (w : World) : Completion × World :=
  let w1 := w.open CACHE_NAME
  match addAll env resolve CACHE_NAME STATIC_CACHE_URLS w1 with
  | (Completion.fulfilled, w2) => (Completion.fulfilled, w2)
  | (Completion.rejected, w2) =>
    match cacheAdd env resolve CACHE_NAME "/index.html" w2 with
    | (Completion.fulfilled, w3) => (Completion.fulfilled, w3)
    | (Completion.rejected, w3) => (Completion.fulfilled, w3)

/-- The data of a `message` event, as far as the worker tells messages apart. -/
inductive Message where
  | skipWaiting
  | cacheUrls (urls : List String)
  | other
deriving DecidableEq, Repr

/-- The `message` event listener: how the promise given to `waitUntil` settles (a
message without one counts as fulfilled), and the world then. `self.skipWaiting()`
does not touch the store. -/
def onMessage (env : Env) (resolve : String → URL) (message : Message) (w : World) :
    Completion × World :=
  match message with
  | Message.cacheUrls urls => addAll env resolve RUNTIME_CACHE urls (w.open RUNTIME_CACHE)
  | Message.skipWaiting => (Completion.fulfilled, w)
  | Message.other => (Completion.fulfilled, w)

/-- Resolution of a path against the sample origin `https://app.example`. -/
def resolvePath (path : String) : URL :=
  { href := "https://app.example" ++ path
    origin := "https://app.example"
    hostname := "app.example"
    pathname := path }

/-- A network on which `/a.png` cannot be reached and everything else answers with
`liveResponse`; the store accepts every write. -/
def flakyEnv : Env :=
  { origin := "https://app.example"
    fetch := fun q =>
      if q.url.pathname = "/a.png" then Except.error "unreachable" else Except.ok liveResponse
    putAccepted := fun _ _ _ => true }

/-- A network on which one icon cannot be reached and everything else answers with
`liveResponse`; the store accepts every write. -/
def iconlessEnv : Env :=
  { origin := "https://app.example"
    fetch := fun q =>
      if q.url.pathname = "/icons/icon-72x72.svg" then Except.error "unreachable"
      else Except.ok liveResponse
    putAccepted := fun _ _ _ => true }

/-! ## The API module (`src/api.js`) -/

/-- A JavaScript value as `JSON.parse` can produce it, plus `undefined`. Numbers
are represented by integers; the code only asks whether a number is zero and
whether two numbers are the same. An object is given by its properties. -/
inductive JsVal where
  | undefined
  | null
  | bool (b : Bool)
  | num (n : Int)
  | str (s : String)
  | arr (items : List JsVal)
  | obj (fields : List (String × JsVal))

/-- Truthiness, as tested by `||`. -/
def JsVal.truthy : JsVal → Bool
  | JsVal.undefined => false
  | JsVal.null => false
  | JsVal.bool b => b
  | JsVal.num n => decide (n ≠ 0)
  | JsVal.str s => decide (s ≠ "")
  | JsVal.arr _ => true
  | JsVal.obj _ => true

/-- Is the value an array? -/
def JsVal.isArray : JsVal → Bool
  | JsVal.arr _ => true
  | _ => false

/-- Is the value a primitive (neither an array nor an object)? -/
def JsVal.isPrimitive : JsVal → Bool
  | JsVal.arr _ => false
  | JsVal.obj _ => false
  | _ => true

/-- The property of that name among the properties of an object. -/
def lookupField (fields : List (String × JsVal)) (name : String) : JsVal :=
  match fields with
  | [] => JsVal.undefined
  | (k, v) :: rest => if k = name then v else lookupField rest name

/-- The property access `value.name`, for a name that no prototype defines: it
throws a `TypeError` on `undefined` and `null`, reads the property of an object,
and is `undefined` on everything else. -/
def getProp (value : JsVal) (name : String) : Except String JsVal :=
  match value with
  | JsVal.undefined => Except.error "TypeError"
  | JsVal.null => Except.error "TypeError"
  | JsVal.obj fields => Except.ok (lookupField fields name)
  | _ => Except.ok JsVal.undefined

/-- The values `for (const x of value)` goes through: the items of an array, the
characters of a string; anything else is not iterable and throws a `TypeError`. -/
def iterate (value : JsVal) : Except String (List JsVal) :=
  match value with
  | JsVal.arr items => Except.ok items
  | JsVal.str s => Except.ok (s.toList.map (fun c => JsVal.str (String.singleton c)))
  | _ => Except.error "TypeError"

/-- The comparison `Set.prototype.has` makes: primitives are compared by value,
while an array or an object is only the same as itself, and no parsed array or
object is met twice. -/
def sameValueZero : JsVal → JsVal → Bool
  | JsVal.undefined, JsVal.undefined => true
  | JsVal.null, JsVal.null => true
  | JsVal.bool a, JsVal.bool b => decide (a = b)
  | JsVal.num a, JsVal.num b => decide (a = b)
  | JsVal.str a, JsVal.str b => decide (a = b)
  | _, _ => false

/-- `set.has(value)` for a set given by its members in insertion order. -/
def setHas (members : List JsVal) (value : JsVal) : Bool :=
  members.any (fun m => sameValueZero m value)

def CORS_PROXY : String := "https://api.allorigins.win/raw?url="
def API_BASE : String := "https://www.thecocktaildb.com/api/json/v1/1/search.php?s="

/-- What `fetch` resolves with, as far as the module looks at it: the status, and
the value `response.json()` resolves with (none when the body does not parse). -/
structure HttpReply where
  status : Nat
  json : Option JsVal

/-- `response.ok`. -/
def HttpReply.ok (r : HttpReply) : Bool := decide (200 ≤ r.status) && decide (r.status ≤ 299)

/-- The surroundings of the module: `encodeURIComponent`, and the network, which
may answer the same URL differently from one call to the next; `fetch n url` is
the outcome of the call made after `n` earlier calls. -/
structure ApiEnv where
  encodeURIComponent : String → String
  fetch : Nat → String → Except String HttpReply

/-- The URL `proxyUrl` built for a search term. -/
def proxyUrl (api : ApiEnv) (drinkName : String) : String :=
  let targetUrl := API_BASE ++ api.encodeURIComponent drinkName
  CORS_PROXY ++ api.encodeURIComponent targetUrl

/-- The `try` block of `fetchDrinkByName`: the value it returns, or what it
throws. -/
def fetchDrinkByNameTry (api : ApiEnv) (tick : Nat) (drinkName : String) :
    Except String JsVal :=
  match api.fetch tick (proxyUrl api drinkName) with
  | Except.error error => Except.error error
  | Except.ok response =>
    if response.ok = false then Except.error "HTTP error!"
    else
      match response.json with
      | none => Except.error "SyntaxError"
      | some data =>
        match getProp data "drinks" with
        | Except.error error => Except.error error
        | Except.ok drinks => Except.ok (if drinks.truthy then drinks else JsVal.arr [])

/-- The function `fetchDrinkByName(drinkName)`: whatever the `try` block throws is
caught and answered with the empty array. -/
def fetchDrinkByName (api : ApiEnv) (tick : Nat) (drinkName : String) : Except String JsVal :=
  match fetchDrinkByNameTry api tick drinkName with
  | Except.ok value => Except.ok value
  | Except.error _ => Except.ok (JsVal.arr [])

/-- The two locals of `fetchDrinksList`: the list `allDrinks` and the members of
the set `uniqueIds`. -/
structure Collected where
  allDrinks : List JsVal
  uniqueIds : List JsVal

/-- The body of the inner loop for one `drink`; reading `drink.idDrink` may
throw. -/
def addDrink (acc : Collected) (drink : JsVal) : Except String Collected :=
  match getProp drink "idDrink" with
  | Except.error error => Except.error error
  | Except.ok idDrink =>
    if setHas acc.uniqueIds idDrink then Except.ok acc
    else Except.ok { allDrinks := acc.allDrinks ++ [drink],
                     uniqueIds := acc.uniqueIds ++ [idDrink] }

/-- The inner loop over the drinks of one name. A throw ends the loop and is
caught by the `catch` of the outer loop body; what was collected before stays. -/
def addDrinks (acc : Collected) (drinks : List JsVal) : Collected :=
  match drinks with
  | [] => acc
  | drink :: rest =>
    match addDrink acc drink with
    | Except.ok acc2 => addDrinks acc2 rest
    | Except.error _ => acc

/-- The body of the outer loop for one name. -/
def collectName (api : ApiEnv) (tick : Nat) (acc : Collected) (drinkName : String) :
    Collected :=
  match fetchDrinkByName api tick drinkName with
  | Except.error _ => acc
  | Except.ok drinks =>
    match iterate drinks with
    | Except.error _ => acc
    | Except.ok items => addDrinks acc items

/-- The outer loop, from the name reached after `tick` lookups. -/
def collectNames (api : ApiEnv) (tick : Nat) (acc : Collected) (drinkNames : List String) :
    Collected :=
  match drinkNames with
  | [] => acc
  | drinkName :: rest => collectNames api (tick + 1) (collectName api tick acc drinkName) rest

/-- The function `fetchDrinksList(drinkNames)`. -/
def fetchDrinksList (api : ApiEnv) (drinkNames : List String) : List JsVal :=
  (collectNames api 0 { allDrinks := [], uniqueIds := [] } drinkNames).allDrinks

/-- An API surrounding in which every call is answered with the same reply. -/
def constantApi (reply : HttpReply) : ApiEnv :=
  { encodeURIComponent := fun s => s
    fetch := fun _ _ => Except.ok reply }

/-- A drink record with an identifier and a name. -/
def drinkRecord (idDrink strDrink : String) : JsVal :=
  JsVal.obj [("idDrink", JsVal.str idDrink), ("strDrink", JsVal.str strDrink)]

/-- The `idDrink` of a value (`undefined` where reading it throws). -/
def idDrinkOf (drink : JsVal) : JsVal :=
  match getProp drink "idDrink" with
  | Except.ok idDrink => idDrink
  | Except.error _ => JsVal.undefined

/-- A record: an object whose `idDrink` is a primitive value (a string, a number,
a boolean, `null`) or is absent. -/
def isRecord (value : JsVal) : Bool :=
  match value with
  | JsVal.obj fields => (lookupField fields "idDrink").isPrimitive
  | _ => false

/-- The outcomes of the lookups `fetchDrinksList` makes for a list of names, in
order, the first one being made after `tick` earlier calls. -/
def lookups (api : ApiEnv) (tick : Nat) (drinkNames : List String) :
    List (Except String JsVal) :=
  match drinkNames with
  | [] => []
  | drinkName :: rest => fetchDrinkByName api tick drinkName :: lookups api (tick + 1) rest

/-- The items of the outcome of one lookup, when it is an array. -/
def itemsOf (outcome : Except String JsVal) : List JsVal :=
  match outcome with
  | Except.ok (JsVal.arr items) => items
  | _ => []

/-- The concatenation of the per-name results, in lookup order. -/
def fetchedDrinks (api : ApiEnv) (tick : Nat) (drinkNames : List String) : List JsVal :=
  match drinkNames with
  | [] => []
  | drinkName :: rest =>
    itemsOf (fetchDrinkByName api tick drinkName) ++ fetchedDrinks api (tick + 1) rest

/-- Order-preserving de-duplication by `idDrink`, given the identifiers already
seen: a drink is kept when its `idDrink` was not seen before. -/
def dedupFrom (seen : List JsVal) (drinks : List JsVal) : List JsVal :=
  match drinks with
  | [] => []
  | drink :: rest =>
    if setHas seen (idDrinkOf drink) then dedupFrom seen rest
    else drink :: dedupFrom (seen ++ [idDrinkOf drink]) rest

/-- A reply with status 200 whose body parses to an object with that value under
`drinks`. -/
def drinksReply (drinks : JsVal) : HttpReply :=
  { status := 200, json := some (JsVal.obj [("drinks", drinks)]) }

/-- Is the outcome of a lookup a list of records? -/
def isRecordList (outcome : Except String JsVal) : Bool :=
  match outcome with
  | Except.ok (JsVal.arr items) => items.all isRecord
  | _ => false

/-! ## Theorems: the fetch handler -/

/-- C1: for a request whose method is not GET the fetch handler supplies no
response and leaves the world as it was: the store is the same and the log has no
new entry, so no cache was read or written. -/
theorem onFetch_non_get (env : Env) (request : Request) (w : World)
    (hmethod : request.method ≠ "GET") :
    onFetch env request w = (Intercept.passThrough, w) := by
  simp [onFetch, route, hmethod]

theorem onFetch_non_get_witness :
    ({ getRequest "/api/order" "" with method := "POST" } : Request).method ≠ "GET" ∧
    onFetch offlineEnv { getRequest "/api/order" "" with method := "POST" }
        { caches := [(API_CACHE, [])], log := [] }
      = (Intercept.passThrough, { caches := [(API_CACHE, [])], log := [] }) :=
  ⟨by decide, onFetch_non_get offlineEnv _ _ (by decide)⟩

/-- C2 as stated fails: a GET request to the foreign host `allorigins.win` matches
none of the three tests of classifier rule 3, yet the handler intercepts it, runs
`networkFirst`, goes to the network and consults the store. -/
theorem onFetch_intercepts_relay_domain :
    relayMirrorRequest.method = "GET"
    ∧ relayMirrorRequest.url.origin ≠ offlineEnv.origin
    ∧ includes relayMirrorRequest.url.hostname "thecocktaildb.com" = false
    ∧ includes relayMirrorRequest.url.hostname "api.allorigins.win" = false
    ∧ includes relayMirrorRequest.url.pathname "/api/" = false
    ∧ route offlineEnv relayMirrorRequest = some Route.networkFirst
    ∧ onFetch offlineEnv relayMirrorRequest emptyWorld
        = (Intercept.respondWith (Settled.rejected "offline"),
            { caches := [],
              log := [Event.fetch "https://allorigins.win/logo",
                      Event.cachesMatchIn API_CACHE "https://allorigins.win/logo",
                      Event.cachesMatchIn RUNTIME_CACHE "https://allorigins.win/logo"] }) := by
  decide

/-- C2, amended: a GET request whose origin differs from the worker's own, whose
host contains neither `thecocktaildb.com` nor `allorigins.win` (the two tests of
the origin gate) and whose path contains no `/api/`, is not intercepted: no path is
chosen, no response is supplied, and store and log are as before. -/
theorem onFetch_foreign_origin (env : Env) (request : Request) (w : World)
    (_hmethod : request.method = "GET")
    (horigin : request.url.origin ≠ env.origin)
    (hdb : includes request.url.hostname "thecocktaildb.com" = false)
    (hrelay : includes request.url.hostname "allorigins.win" = false)
    (_hpath : includes request.url.pathname "/api/" = false) :
    route env request = none ∧ onFetch env request w = (Intercept.passThrough, w) := by
  simp [onFetch, route, horigin, hdb, hrelay]

theorem onFetch_foreign_origin_witness :
    route offlineEnv { relayMirrorRequest with
        url := { relayMirrorRequest.url with hostname := "cdn.example",
                                             origin := "https://cdn.example" } } = none
    ∧ onFetch offlineEnv { relayMirrorRequest with
        url := { relayMirrorRequest.url with hostname := "cdn.example",
                                             origin := "https://cdn.example" } } emptyWorld
      = (Intercept.passThrough, emptyWorld) :=
  onFetch_foreign_origin offlineEnv _ emptyWorld (by decide) (by decide) (by decide)
    (by decide) (by decide)

/-- The truthiness guard in front of `includes` changes nothing: the empty accept
header does not contain `text/html` either. -/
theorem acceptsHtml_eq (request : Request) :
    acceptsHtml request = acceptContainsHtml request := by
  unfold acceptsHtml acceptContainsHtml
  cases request.accept with
  | none => rfl
  | some a =>
    by_cases ha : a = ""
    · subst ha; decide
    · simp [ha]

/-- The chain of tests of the handler picks the path of the first matching rule. -/
theorem route_eq_specRoute (env : Env) (request : Request)
    (hmethod : request.method = "GET") (horigin : request.url.origin = env.origin) :
    route env request = some (specRoute request) := by
  simp only [route, specRoute, specRules, isNavigation, acceptsHtml_eq, hmethod, horigin,
    List.find?]
  cases h1 : (decide (request.mode = "navigate") || acceptContainsHtml request) <;>
  cases h2 : (includes request.url.pathname "/api/"
      || includes request.url.hostname "thecocktaildb.com"
      || includes request.url.hostname "api.allorigins.win") <;>
  cases h3 : (decide (request.destination = "image")
      || matchesImageExt request.url.pathname) <;>
  cases h4 : (decide (request.destination ∈ ["document", "style", "script"])
      || matchesStaticExt request.url.pathname || isRootPath request.url) <;>
  simp_all
  all_goals (intros; simp_all)

/-- C3: for a GET request to the worker's own origin the fetch handler responds
through exactly one path, that of the first matching rule in the order navigation,
API (`networkFirst`), image (`staleWhileRevalidate`), static asset (`cacheFirst`),
anything else (`networkFirst`). In particular, off the navigation rule, the path
`/api/x.png` goes to `networkFirst`, and `/icons/a.svg` asked for with destination
`script` on a host that is not an API host goes to `staleWhileRevalidate`. -/
theorem onFetch_same_origin_get (env : Env) (request : Request) (w : World)
    (hmethod : request.method = "GET") (horigin : request.url.origin = env.origin) :
    route env request = some (specRoute request)
    ∧ onFetch env request w
        = (Intercept.respondWith ((specRoute request).run env request w).1,
            ((specRoute request).run env request w).2)
    ∧ (request.mode ≠ "navigate" → acceptContainsHtml request = false →
        request.url.pathname = "/api/x.png" →
        route env request = some Route.networkFirst)
    ∧ (request.mode ≠ "navigate" → acceptContainsHtml request = false →
        includes request.url.hostname "thecocktaildb.com" = false →
        includes request.url.hostname "api.allorigins.win" = false →
        request.url.pathname = "/icons/a.svg" → request.destination = "script" →
        route env request = some Route.staleWhileRevalidate) := by
  have hr := route_eq_specRoute env request hmethod horigin
  refine ⟨hr, by simp [onFetch, hr], ?_, ?_⟩
  · intro hmode haccept hpath
    have hapi : includes request.url.pathname "/api/" = true := by rw [hpath]; decide
    rw [hr]
    simp [specRoute, specRules, List.find?, hmode, haccept, hapi]
  · intro hmode haccept hdb hrelay hpath hdest
    have hapi : includes request.url.pathname "/api/" = false := by rw [hpath]; decide
    have himg : matchesImageExt request.url.pathname = true := by rw [hpath]; decide
    rw [hr]
    simp [specRoute, specRules, List.find?, hmode, haccept, hapi, hdb, hrelay, himg]

theorem onFetch_same_origin_get_witness :
    route offlineEnv (getRequest "/api/x.png" "image") = some Route.networkFirst
    ∧ route offlineEnv (getRequest "/icons/a.svg" "script")
        = some Route.staleWhileRevalidate
    ∧ route offlineEnv (getRequest "/app.js" "script") = some Route.cacheFirst :=
  ⟨(onFetch_same_origin_get offlineEnv (getRequest "/api/x.png" "image") emptyWorld
      (by decide) (by decide)).2.2.1 (by decide) (by decide) (by decide),
   (onFetch_same_origin_get offlineEnv (getRequest "/icons/a.svg" "script") emptyWorld
      (by decide) (by decide)).2.2.2 (by decide) (by decide) (by decide) (by decide)
      (by decide) (by decide),
   (onFetch_same_origin_get offlineEnv (getRequest "/app.js" "script") emptyWorld
      (by decide) (by decide)).1⟩

/-! ## Lemmas about the store -/

theorem cacheMatch_cons (k : String) (r : Response) (rest : Cache) (key : String) :
    cacheMatch ((k, r) :: rest) key = if k = key then some r else cacheMatch rest key := rfl

theorem cachesGet_cons (n : String) (c : Cache) (rest : CacheStorage) (name : String) :
    cachesGet ((n, c) :: rest) name = if n = name then some c else cachesGet rest name := rfl

theorem cachesPut_cons (n : String) (c : Cache) (rest : CacheStorage) (name key : String)
    (r : Response) :
    cachesPut ((n, c) :: rest) name key r
      = (if n = name then (n, cachePut c key r) else (n, c)) :: cachesPut rest name key r := rfl

theorem cacheMatch_append_single (c : Cache) (key key2 : String) (r : Response) :
    cacheMatch (c ++ [(key, r)]) key2
      = (cacheMatch c key2).orElse (fun _ => if key = key2 then some r else none) := by
  induction c with
  | nil => simp [cacheMatch]
  | cons e rest ih =>
    obtain ⟨k, r1⟩ := e
    rw [List.cons_append, cacheMatch_cons, cacheMatch_cons, ih]
    split_ifs <;> simp

theorem cacheMatch_filter_ne_self (c : Cache) (key : String) :
    cacheMatch (c.filter (fun e => decide (e.1 ≠ key))) key = none := by
  induction c with
  | nil => simp [cacheMatch]
  | cons e rest ih =>
    obtain ⟨k, r1⟩ := e
    rw [List.filter_cons]
    by_cases hk : k = key
    · simpa [hk] using ih
    · simp only [ne_eq, hk, not_false_eq_true, decide_True, if_true, cacheMatch_cons, if_false]
      exact ih

theorem cacheMatch_filter_ne_other (c : Cache) (key key2 : String) (h : key2 ≠ key) :
    cacheMatch (c.filter (fun e => decide (e.1 ≠ key))) key2 = cacheMatch c key2 := by
  induction c with
  | nil => simp [cacheMatch]
  | cons e rest ih =>
    obtain ⟨k, r1⟩ := e
    rw [List.filter_cons, cacheMatch_cons]
    by_cases hk : k = key
    · subst hk
      have hk2 : ¬ k = key2 := fun h2 => h h2.symm
      simpa [hk2] using ih
    · simp only [ne_eq, hk, not_false_eq_true, decide_True, if_true, cacheMatch_cons]
      rw [ih]

/-- After a write the key holds the written response. -/
theorem cacheMatch_cachePut_self (c : Cache) (key : String) (r : Response) :
    cacheMatch (cachePut c key r) key = some r := by
  unfold cachePut
  rw [cacheMatch_append_single, cacheMatch_filter_ne_self]
  simp

/-- A write leaves the other keys of the cache alone. -/
theorem cacheMatch_cachePut_other (c : Cache) (key key2 : String) (r : Response)
    (h : key2 ≠ key) : cacheMatch (cachePut c key r) key2 = cacheMatch c key2 := by
  have h2 : ¬ key = key2 := fun e => h e.symm
  unfold cachePut
  rw [cacheMatch_append_single, cacheMatch_filter_ne_other c key key2 h, if_neg h2]
  cases cacheMatch c key2 <;> simp

theorem cachesGet_append_single (s : CacheStorage) (name name2 : String) (c : Cache) :
    cachesGet (s ++ [(name, c)]) name2
      = (cachesGet s name2).orElse (fun _ => if name = name2 then some c else none) := by
  induction s with
  | nil => simp [cachesGet]
  | cons e rest ih =>
    obtain ⟨n, c1⟩ := e
    rw [List.cons_append, cachesGet_cons, cachesGet_cons, ih]
    split_ifs <;> simp

/-- Opening a cache does not disturb the caches of other names. -/
theorem cachesGet_cachesOpen_other (s : CacheStorage) (name name2 : String)
    (h : name2 ≠ name) : cachesGet (cachesOpen s name) name2 = cachesGet s name2 := by
  have h2 : ¬ name = name2 := fun e => h e.symm
  unfold cachesOpen
  split
  · rfl
  · rw [cachesGet_append_single, if_neg h2]
    cases cachesGet s name2 <;> simp

/-- After `caches.open(name)` the cache exists, with the entries it had. -/
theorem cachesGet_cachesOpen_self (s : CacheStorage) (name : String) :
    cachesGet (cachesOpen s name) name = some ((cachesGet s name).getD []) := by
  unfold cachesOpen cachesHas
  cases h : cachesGet s name with
  | none => simp [cachesGet_append_single, h]
  | some c => simp [h]

/-- A write into one cache does not disturb the caches of other names. -/
theorem cachesGet_cachesPut_other (s : CacheStorage) (name name2 key : String) (r : Response)
    (h : name2 ≠ name) : cachesGet (cachesPut s name key r) name2 = cachesGet s name2 := by
  induction s with
  | nil => rfl
  | cons e rest ih =>
    obtain ⟨n, c1⟩ := e
    rw [cachesPut_cons, cachesGet_cons]
    by_cases hn : n = name
    · have hn2 : ¬ n = name2 := fun e => h (e.symm.trans hn)
      rw [if_pos hn, cachesGet_cons, if_neg hn2, if_neg hn2, ih]
    · rw [if_neg hn, cachesGet_cons, ih]

/-- A write into a cache rewrites the cache found under that name. -/
theorem cachesGet_cachesPut_self (s : CacheStorage) (name key : String) (r : Response) :
    cachesGet (cachesPut s name key r) name
      = (cachesGet s name).map (fun c => cachePut c key r) := by
  induction s with
  | nil => rfl
  | cons e rest ih =>
    obtain ⟨n, c1⟩ := e
    rw [cachesPut_cons, cachesGet_cons]
    by_cases hn : n = name
    · rw [if_pos hn, cachesGet_cons, if_pos hn, if_pos hn]; rfl
    · rw [if_neg hn, cachesGet_cons, if_neg hn, if_neg hn, ih]

/-- Opening a cache does not change what a lookup in it finds. -/
theorem cachesMatchIn_cachesOpen (s : CacheStorage) (name name2 key : String) :
    cachesMatchIn (cachesOpen s name) name2 key = cachesMatchIn s name2 key := by
  unfold cachesMatchIn
  by_cases h : name2 = name
  · subst h
    rw [cachesGet_cachesOpen_self]
    cases cachesGet s name2 <;> simp [cacheMatch]
  · rw [cachesGet_cachesOpen_other s name name2 h]

/-- After `open` and an accepted `put`, the named cache answers the key with the
written response. -/
theorem cachesMatchIn_put_open (s : CacheStorage) (name key : String) (r : Response) :
    cachesMatchIn (cachesPut (cachesOpen s name) name key r) name key = some r := by
  unfold cachesMatchIn
  rw [cachesGet_cachesPut_self, cachesGet_cachesOpen_self]
  simp [cacheMatch_cachePut_self]

/-- A hit in a named cache is a hit of the unnamed search, though maybe on an
entry of an older cache. -/
theorem cachesMatch_isSome_of_cachesMatchIn (s : CacheStorage) (name key : String)
    (r : Response) (h : cachesMatchIn s name key = some r) :
    ∃ r2, cachesMatch s key = some r2 := by
  induction s with
  | nil => simp [cachesMatchIn, cachesGet] at h
  | cons e rest ih =>
    obtain ⟨n, c1⟩ := e
    cases hc : cacheMatch c1 key with
    | some r1 => exact ⟨r1, by simp [cachesMatch, hc]⟩
    | none =>
      by_cases hn : n = name
      · simp [cachesMatchIn, cachesGet, hn, hc] at h
      · have h2 : cachesMatchIn rest name key = some r := by
          simpa [cachesMatchIn, cachesGet, hn] using h
        obtain ⟨r2, hr2⟩ := ih h2
        exact ⟨r2, by simp [cachesMatch, hc, hr2]⟩

/-- What the unnamed search returns is an entry of one of the caches. -/
theorem cachesMatch_stored (s : CacheStorage) (key : String) (r : Response)
    (h : cachesMatch s key = some r) :
    ∃ name c, (name, c) ∈ s ∧ cacheMatch c key = some r := by
  induction s with
  | nil => simp [cachesMatch] at h
  | cons e rest ih =>
    obtain ⟨n, c1⟩ := e
    cases hc : cacheMatch c1 key with
    | some r1 =>
      have : r1 = r := by simpa [cachesMatch, hc] using h
      exact ⟨n, c1, by simp, by rw [hc, this]⟩
    | none =>
      have h2 : cachesMatch rest key = some r := by simpa [cachesMatch, hc] using h
      obtain ⟨name, c, hmem, hm⟩ := ih h2
      exact ⟨name, c, by simp [hmem], hm⟩

/-! ## Theorems: networkFirst -/

theorem API_CACHE_ne_CACHE_NAME : CACHE_NAME ≠ API_CACHE := by decide

theorem API_CACHE_ne_RUNTIME_CACHE : RUNTIME_CACHE ≠ API_CACHE := by decide

/-- C4: when the network answers `networkFirst` with an ok response, that response
is what the caller gets and the static and runtime caches are what they were,
whether or not the store takes the write; and when the store accepts the write,
the API cache then holds the response under the request's key. -/
theorem networkFirst_success (env : Env) (request : Request) (w : World) (r : Response)
    (hfetch : env.fetch request = Except.ok r) (hok : r.ok = true) :
    (networkFirst env request w).1 = Settled.resolved r
    ∧ (env.putAccepted API_CACHE request.key r = true →
        cachesMatchIn (networkFirst env request w).2.caches API_CACHE request.key = some r)
    ∧ cachesGet (networkFirst env request w).2.caches CACHE_NAME
        = cachesGet w.caches CACHE_NAME
    ∧ cachesGet (networkFirst env request w).2.caches RUNTIME_CACHE
        = cachesGet w.caches RUNTIME_CACHE := by
  simp only [networkFirst, hfetch, hok, if_true, World.put, World.open, World.emit]
  refine ⟨trivial, ?_, ?_, ?_⟩
  · intro hput
    rw [if_pos hput]
    exact cachesMatchIn_put_open _ _ _ _
  · cases hput : env.putAccepted API_CACHE request.key r with
    | true =>
      rw [if_pos rfl, cachesGet_cachesPut_other _ _ _ _ _ API_CACHE_ne_CACHE_NAME,
        cachesGet_cachesOpen_other _ _ _ API_CACHE_ne_CACHE_NAME]
    | false =>
      rw [if_neg (by simp), cachesGet_cachesOpen_other _ _ _ API_CACHE_ne_CACHE_NAME]
  · cases hput : env.putAccepted API_CACHE request.key r with
    | true =>
      rw [if_pos rfl, cachesGet_cachesPut_other _ _ _ _ _ API_CACHE_ne_RUNTIME_CACHE,
        cachesGet_cachesOpen_other _ _ _ API_CACHE_ne_RUNTIME_CACHE]
    | false =>
      rw [if_neg (by simp), cachesGet_cachesOpen_other _ _ _ API_CACHE_ne_RUNTIME_CACHE]

theorem networkFirst_success_witness :
    ((networkFirst onlineEnv (getRequest "/api/drinks" "") runtimeOnlyWorld).1
        = Settled.resolved liveResponse
      ∧ cachesMatchIn (networkFirst onlineEnv (getRequest "/api/drinks" "")
            runtimeOnlyWorld).2.caches API_CACHE (getRequest "/api/drinks" "").key
          = some liveResponse
      ∧ cachesGet (networkFirst onlineEnv (getRequest "/api/drinks" "")
            runtimeOnlyWorld).2.caches CACHE_NAME
          = cachesGet runtimeOnlyWorld.caches CACHE_NAME
      ∧ cachesGet (networkFirst onlineEnv (getRequest "/api/drinks" "")
            runtimeOnlyWorld).2.caches RUNTIME_CACHE
          = cachesGet runtimeOnlyWorld.caches RUNTIME_CACHE)
    ∧ partialEnv.putAccepted API_CACHE (getRequest "/api/drinks" "").key partialResponse = false
    ∧ (networkFirst partialEnv (getRequest "/api/drinks" "") runtimeOnlyWorld).1
        = Settled.resolved partialResponse
    ∧ cachesGet (networkFirst partialEnv (getRequest "/api/drinks" "")
          runtimeOnlyWorld).2.caches RUNTIME_CACHE
        = cachesGet runtimeOnlyWorld.caches RUNTIME_CACHE :=
  ⟨⟨(networkFirst_success onlineEnv (getRequest "/api/drinks" "") runtimeOnlyWorld
        liveResponse rfl (by decide)).1,
    (networkFirst_success onlineEnv (getRequest "/api/drinks" "") runtimeOnlyWorld
        liveResponse rfl (by decide)).2.1 (by decide),
    (networkFirst_success onlineEnv (getRequest "/api/drinks" "") runtimeOnlyWorld
        liveResponse rfl (by decide)).2.2.1,
    (networkFirst_success onlineEnv (getRequest "/api/drinks" "") runtimeOnlyWorld
        liveResponse rfl (by decide)).2.2.2⟩,
   by decide,
   (networkFirst_success partialEnv (getRequest "/api/drinks" "") runtimeOnlyWorld
      partialResponse rfl (by decide)).1,
   (networkFirst_success partialEnv (getRequest "/api/drinks" "") runtimeOnlyWorld
      partialResponse rfl (by decide)).2.2.2⟩

/-- C5: when the network fails, `networkFirst` answers with the API-cache entry of
the request's key if there is one (also when the runtime cache has one too),
otherwise with the runtime-cache entry if there is one, otherwise it fails with the
error of the fetch; the store is left as it was. -/
theorem networkFirst_failure (env : Env) (request : Request) (w : World) (error : String)
    (hfetch : env.fetch request = Except.error error) :
    (∀ r, cachesMatchIn w.caches API_CACHE request.key = some r →
        (networkFirst env request w).1 = Settled.resolved r)
    ∧ (∀ r, cachesMatchIn w.caches API_CACHE request.key = none →
        cachesMatchIn w.caches RUNTIME_CACHE request.key = some r →
        (networkFirst env request w).1 = Settled.resolved r)
    ∧ (cachesMatchIn w.caches API_CACHE request.key = none →
        cachesMatchIn w.caches RUNTIME_CACHE request.key = none →
        (networkFirst env request w).1 = Settled.rejected error)
    ∧ (networkFirst env request w).2.caches = w.caches := by
  refine ⟨?_, ?_, ?_, ?_⟩
  · intro r h1
    simp [networkFirst, hfetch, h1]
  · intro r h1 h2
    simp [networkFirst, hfetch, h1, h2]
  · intro h1 h2
    simp [networkFirst, hfetch, h1, h2]
  · simp only [networkFirst, hfetch, World.emit]
    cases cachesMatchIn w.caches API_CACHE request.key with
    | some r => rfl
    | none => cases cachesMatchIn w.caches RUNTIME_CACHE request.key <;> rfl

theorem networkFirst_failure_witness :
    cachesMatchIn runtimeOnlyWorld.caches API_CACHE (getRequest "/app.js" "").key = none
    ∧ (networkFirst offlineEnv (getRequest "/app.js" "") runtimeOnlyWorld).1
        = Settled.resolved staleResponse
    ∧ (networkFirst offlineEnv (getRequest "/app.js" "") runtimeOnlyWorld).2.caches
        = runtimeOnlyWorld.caches :=
  ⟨by decide,
   (networkFirst_failure offlineEnv (getRequest "/app.js" "") runtimeOnlyWorld "offline"
      rfl).2.1 staleResponse (by decide) (by decide),
   (networkFirst_failure offlineEnv (getRequest "/app.js" "") runtimeOnlyWorld "offline"
      rfl).2.2.2⟩

/-! ## Theorems: cacheFirst -/

theorem fetchCount_emit_not_fetch (w : World) (e : Event) (h : e.isFetch = false) :
    (w.emit e).fetchCount = w.fetchCount := by
  simp [World.emit, World.fetchCount, List.filter_append, List.filter_cons, h]

theorem fetchCount_emit_fetch (w : World) (url : String) :
    (w.emit (Event.fetch url)).fetchCount = w.fetchCount + 1 := by
  simp [World.emit, World.fetchCount, List.filter_append, List.filter_cons, Event.isFetch]

/-- C6: when the static cache holds the request's key, `cacheFirst` answers with a
response stored in one of the caches under that key, makes no network fetch, and
leaves the store as it was. -/
theorem cacheFirst_hit (env : Env) (request : Request) (w : World) (r0 : Response)
    (hhit : cachesMatchIn w.caches CACHE_NAME request.key = some r0) :
    (∃ r, (cacheFirst env request w).1 = Settled.resolved r
        ∧ ∃ name c, (name, c) ∈ w.caches ∧ cacheMatch c request.key = some r)
    ∧ (cacheFirst env request w).2.fetchCount = w.fetchCount
    ∧ (cacheFirst env request w).2.caches = w.caches := by
  obtain ⟨r, hr⟩ := cachesMatch_isSome_of_cachesMatchIn _ _ _ _ hhit
  have hrun : cacheFirst env request w
      = (Settled.resolved r, w.emit (Event.cachesMatch request.key)) := by
    simp [cacheFirst, hr]
  rw [hrun]
  exact ⟨⟨r, rfl, cachesMatch_stored _ _ _ hr⟩, fetchCount_emit_not_fetch _ _ rfl, rfl⟩

theorem cacheFirst_hit_witness :
    (∃ r, (cacheFirst offlineEnv (getRequest "/logo.png" "style")
          { caches := [(CACHE_NAME, [("https://app.example/logo.png", liveResponse)])],
            log := [] }).1 = Settled.resolved r
        ∧ ∃ name c, (name, c) ∈ [(CACHE_NAME, [("https://app.example/logo.png", liveResponse)])]
            ∧ cacheMatch c (getRequest "/logo.png" "style").key = some r)
    ∧ (cacheFirst offlineEnv (getRequest "/logo.png" "style")
          { caches := [(CACHE_NAME, [("https://app.example/logo.png", liveResponse)])],
            log := [] }).2.fetchCount = 0
    ∧ (cacheFirst offlineEnv (getRequest "/logo.png" "style")
          { caches := [(CACHE_NAME, [("https://app.example/logo.png", liveResponse)])],
            log := [] }).2.caches
        = [(CACHE_NAME, [("https://app.example/logo.png", liveResponse)])] :=
  cacheFirst_hit offlineEnv (getRequest "/logo.png" "style")
    { caches := [(CACHE_NAME, [("https://app.example/logo.png", liveResponse)])], log := [] }
    liveResponse (by decide)

/-- C7 as stated fails: the key `/app.js` is absent from the static cache and
present in the runtime cache; the network would answer with an ok response and the
store would accept it, yet `cacheFirst` answers with the runtime entry, makes no
fetch and writes nothing into the static cache. -/
theorem cacheFirst_served_from_runtime :
    cachesMatchIn runtimeOnlyWorld.caches CACHE_NAME (getRequest "/app.js" "script").key = none
    ∧ onlineEnv.fetch (getRequest "/app.js" "script") = Except.ok liveResponse
    ∧ liveResponse.ok = true
    ∧ onlineEnv.putAccepted CACHE_NAME (getRequest "/app.js" "script").key liveResponse = true
    ∧ cacheFirst onlineEnv (getRequest "/app.js" "script") runtimeOnlyWorld
        = (Settled.resolved staleResponse,
            { caches := runtimeOnlyWorld.caches,
              log := [Event.cachesMatch "https://app.example/app.js"] })
    ∧ (cacheFirst onlineEnv (getRequest "/app.js" "script") runtimeOnlyWorld).2.fetchCount = 0
    ∧ cachesMatchIn (cacheFirst onlineEnv (getRequest "/app.js" "script")
          runtimeOnlyWorld).2.caches CACHE_NAME (getRequest "/app.js" "script").key = none :=
  ⟨by decide, rfl, by decide, by decide, by decide, by decide, by decide⟩

/-- C7, amended: the lookup of `cacheFirst` goes through every cache. Whenever the
request's key is absent from all of them, one network fetch is made, and if it
yields an ok response, that response is returned to the caller and, the store
accepting the write, is then held by the static cache under the request's key. -/
theorem cacheFirst_miss (env : Env) (request : Request) (w : World)
    (hmiss : cachesMatch w.caches request.key = none) :
    (cacheFirst env request w).2.fetchCount = w.fetchCount + 1
    ∧ ∀ r, env.fetch request = Except.ok r → r.ok = true →
        (cacheFirst env request w).1 = Settled.resolved r
        ∧ (env.putAccepted CACHE_NAME request.key r = true →
            cachesMatchIn (cacheFirst env request w).2.caches CACHE_NAME request.key
              = some r) := by
  constructor
  · cases hf : env.fetch request with
    | ok r =>
      cases hok : r.ok <;>
        simp [cacheFirst, hmiss, hf, hok, World.emit, World.open, World.put, World.fetchCount,
          List.filter_append, List.filter_cons, Event.isFetch]
    | error e =>
      cases ha : acceptsHtml request <;> cases hroot : isRootPath request.url <;>
        cases hidx : cachesMatch w.caches (indexKey env) <;>
        simp [cacheFirst, hmiss, hf, cacheFirstCatch, ha, hroot, hidx, World.emit,
          World.fetchCount, List.filter_append, List.filter_cons, Event.isFetch]
  · intro r hf hok
    constructor
    · simp [cacheFirst, hmiss, hf, hok]
    · intro hput
      simp only [cacheFirst, hmiss, hf, hok, if_true, World.put, World.open, World.emit, hput]
      exact cachesMatchIn_put_open _ _ _ _

theorem cacheFirst_miss_witness :
    (cacheFirst onlineEnv (getRequest "/app.js" "script") emptyWorld).2.fetchCount = 1
    ∧ (cacheFirst onlineEnv (getRequest "/app.js" "script") emptyWorld).1
        = Settled.resolved liveResponse
    ∧ cachesMatchIn (cacheFirst onlineEnv (getRequest "/app.js" "script") emptyWorld).2.caches
        CACHE_NAME (getRequest "/app.js" "script").key = some liveResponse :=
  ⟨(cacheFirst_miss onlineEnv (getRequest "/app.js" "script") emptyWorld (by decide)).1,
   ((cacheFirst_miss onlineEnv (getRequest "/app.js" "script") emptyWorld (by decide)).2
      liveResponse rfl (by decide)).1,
   ((cacheFirst_miss onlineEnv (getRequest "/app.js" "script") emptyWorld (by decide)).2
      liveResponse rfl (by decide)).2 (by decide)⟩

/-! ## Theorems: staleWhileRevalidate -/

/-- An existing cache is not touched by `caches.open`. -/
theorem cachesOpen_of_cachesMatchIn (s : CacheStorage) (name key : String) (r : Response)
    (h : cachesMatchIn s name key = some r) : cachesOpen s name = s := by
  unfold cachesOpen cachesHas
  unfold cachesMatchIn at h
  cases hg : cachesGet s name with
  | none => simp [hg] at h
  | some c => simp

/-- C8 as stated fails: the runtime cache holds an entry for `/logo.png`, the
background fetch succeeds with a status in the ok range (206), the store refuses to
keep a partial response, and the entry is not replaced. -/
theorem staleWhileRevalidate_entry_kept_on_ok :
    cachesMatchIn cachedImageWorld.caches RUNTIME_CACHE (getRequest "/logo.png" "image").key
      = some staleResponse
    ∧ partialEnv.fetch (getRequest "/logo.png" "image") = Except.ok partialResponse
    ∧ partialResponse.ok = true
    ∧ partialResponse ≠ staleResponse
    ∧ cachesMatchIn (staleWhileRevalidate partialEnv (getRequest "/logo.png" "image")
          cachedImageWorld).2.caches RUNTIME_CACHE (getRequest "/logo.png" "image").key
        = some staleResponse :=
  ⟨by decide, rfl, by decide, by decide, by decide⟩

/-- C8, amended: when the runtime cache holds an entry for the request's key,
`staleWhileRevalidate` answers with that entry whatever the network does, so no
failure reaches the caller; the entry is replaced by the network response when the
fetch yields an ok response and the store accepts the write, and in every other
case the store is left as it was. -/
theorem staleWhileRevalidate_hit (env : Env) (request : Request) (w : World) (r0 : Response)
    (hhit : cachesMatchIn w.caches RUNTIME_CACHE request.key = some r0) :
    (staleWhileRevalidate env request w).1 = Settled.resolved r0
    ∧ (∀ r, env.fetch request = Except.ok r → r.ok = true →
        env.putAccepted RUNTIME_CACHE request.key r = true →
        cachesMatchIn (staleWhileRevalidate env request w).2.caches RUNTIME_CACHE request.key
          = some r)
    ∧ ((¬ ∃ r, env.fetch request = Except.ok r ∧ r.ok = true
          ∧ env.putAccepted RUNTIME_CACHE request.key r = true) →
        (staleWhileRevalidate env request w).2.caches = w.caches) := by
  have hopen := cachesOpen_of_cachesMatchIn _ _ _ _ hhit
  refine ⟨?_, ?_, ?_⟩
  · simp [staleWhileRevalidate, World.open, cachesMatchIn_cachesOpen, hhit]
  · intro r hf hok hput
    simp only [staleWhileRevalidate, World.open, cachesMatchIn_cachesOpen, hhit, hf, hok,
      if_true, World.put, World.emit, hput]
    rw [← hopen]
    exact cachesMatchIn_put_open _ _ _ _
  · intro hno
    cases hf : env.fetch request with
    | error e =>
      simp [staleWhileRevalidate, World.open, cachesMatchIn_cachesOpen, hhit, hf, World.emit,
        hopen]
    | ok r =>
      cases hok : r.ok with
      | false =>
        simp [staleWhileRevalidate, World.open, cachesMatchIn_cachesOpen, hhit, hf, hok,
          World.emit, hopen]
      | true =>
        have hput : env.putAccepted RUNTIME_CACHE request.key r = false := by
          cases hp : env.putAccepted RUNTIME_CACHE request.key r with
          | false => rfl
          | true => exact absurd ⟨r, hf, hok, hp⟩ hno
        simp [staleWhileRevalidate, World.open, cachesMatchIn_cachesOpen, hhit, hf, hok,
          World.emit, World.put, hput, hopen]

theorem staleWhileRevalidate_hit_witness :
    (staleWhileRevalidate onlineEnv (getRequest "/logo.png" "image") cachedImageWorld).1
      = Settled.resolved staleResponse
    ∧ cachesMatchIn (staleWhileRevalidate onlineEnv (getRequest "/logo.png" "image")
          cachedImageWorld).2.caches RUNTIME_CACHE (getRequest "/logo.png" "image").key
        = some liveResponse
    ∧ (staleWhileRevalidate offlineEnv (getRequest "/logo.png" "image") cachedImageWorld).1
        = Settled.resolved staleResponse
    ∧ (staleWhileRevalidate offlineEnv (getRequest "/logo.png" "image")
          cachedImageWorld).2.caches = cachedImageWorld.caches :=
  ⟨(staleWhileRevalidate_hit onlineEnv (getRequest "/logo.png" "image") cachedImageWorld
      staleResponse (by decide)).1,
   (staleWhileRevalidate_hit onlineEnv (getRequest "/logo.png" "image") cachedImageWorld
      staleResponse (by decide)).2.1 liveResponse rfl (by decide) (by decide),
   (staleWhileRevalidate_hit offlineEnv (getRequest "/logo.png" "image") cachedImageWorld
      staleResponse (by decide)).1,
   (staleWhileRevalidate_hit offlineEnv (getRequest "/logo.png" "image") cachedImageWorld
      staleResponse (by decide)).2.2 (by simp [offlineEnv])⟩

/-- C9 as stated fails: with no runtime entry and the network down, the call does
not fail with the network failure: it settles with no value (`undefined`). -/
theorem staleWhileRevalidate_miss_offline_undefined :
    cachesMatchIn emptyWorld.caches RUNTIME_CACHE (getRequest "/logo.png" "image").key = none
    ∧ offlineEnv.fetch (getRequest "/logo.png" "image") = Except.error "offline"
    ∧ (staleWhileRevalidate offlineEnv (getRequest "/logo.png" "image") emptyWorld).1
        = Settled.undefined
    ∧ (staleWhileRevalidate offlineEnv (getRequest "/logo.png" "image") emptyWorld).1
        ≠ Settled.rejected "offline" :=
  ⟨by decide, rfl, by decide, by decide⟩

/-- C9, amended: when the runtime cache holds no entry for the request's key, the
caller of `staleWhileRevalidate` receives the network response when the fetch
succeeds (whatever its status), and when the fetch fails the failure is swallowed
and the call settles with no value (`undefined`) instead of failing. -/
theorem staleWhileRevalidate_miss (env : Env) (request : Request) (w : World)
    (hmiss : cachesMatchIn w.caches RUNTIME_CACHE request.key = none) :
    (∀ r, env.fetch request = Except.ok r →
        (staleWhileRevalidate env request w).1 = Settled.resolved r)
    ∧ (∀ error, env.fetch request = Except.error error →
        (staleWhileRevalidate env request w).1 = Settled.undefined) := by
  constructor
  · intro r hf
    cases hok : r.ok <;>
      simp [staleWhileRevalidate, World.open, cachesMatchIn_cachesOpen, hmiss, hf, hok]
  · intro error hf
    simp [staleWhileRevalidate, World.open, cachesMatchIn_cachesOpen, hmiss, hf]

theorem staleWhileRevalidate_miss_witness :
    (staleWhileRevalidate onlineEnv (getRequest "/logo.png" "image") emptyWorld).1
      = Settled.resolved liveResponse
    ∧ (staleWhileRevalidate offlineEnv (getRequest "/logo.png" "image") runtimeOnlyWorld).1
        = Settled.undefined :=
  ⟨(staleWhileRevalidate_miss onlineEnv (getRequest "/logo.png" "image") emptyWorld
      (by decide)).1 liveResponse rfl,
   (staleWhileRevalidate_miss offlineEnv (getRequest "/logo.png" "image") runtimeOnlyWorld
      (by decide)).2 "offline" rfl⟩

/-! ## Theorems: activate -/

/-- A name passes the test of the activate handler exactly when it is one of the
three current cache names. -/
theorem isStale_eq_false_iff (name : String) :
    isStale name = false ↔ name ∈ [CACHE_NAME, RUNTIME_CACHE, API_CACHE] := by
  simp only [isStale, List.mem_cons, List.mem_singleton, List.not_mem_nil, or_false]
  by_cases h1 : name = CACHE_NAME <;> by_cases h2 : name = RUNTIME_CACHE <;>
    by_cases h3 : name = API_CACHE <;> simp [h1, h2, h3]

theorem activateStep_caches (w : World) (name : String) :
    (activateStep w name).caches
      = w.caches.filter (fun e => !(isStale name && decide (e.1 = name))) := by
  unfold activateStep
  cases h : isStale name with
  | false => simp
  | true => simp [World.delete, cachesDelete]

/-- Going through a list of names removes the caches whose name is stale and in
the list, and nothing else. -/
theorem foldl_activateStep_caches (names : List String) (w : World) :
    (names.foldl activateStep w).caches
      = w.caches.filter (fun e => !(isStale e.1 && decide (e.1 ∈ names))) := by
  induction names generalizing w with
  | nil => simp
  | cons n rest ih =>
    rw [List.foldl_cons, ih, activateStep_caches, List.filter_filter]
    apply List.filter_congr
    intro e _
    by_cases hn : e.1 = n
    · cases hs : isStale n <;> simp [hn, hs]
    · cases hs : isStale e.1 <;> cases hs2 : isStale n <;> simp [hn]

theorem cachesGet_filter_name (s : CacheStorage) (q : String → Bool) (name : String) :
    cachesGet (s.filter (fun e => q e.1)) name = if q name then cachesGet s name else none := by
  induction s with
  | nil => simp [cachesGet]
  | cons e rest ih =>
    obtain ⟨n, c⟩ := e
    rw [List.filter_cons]
    by_cases hn : n = name
    · subst hn
      cases hq : q n <;> simp [hq, cachesGet_cons, ih]
    · cases hq : q n <;> cases hq2 : q name <;> simp [hq, hq2, cachesGet_cons, hn, ih]

/-- C10: after `activate` the store is the prior store restricted to the three
current names `drink-master-v5`, `drink-master-runtime-v5`, `drink-master-api-v5`:
the names left are the prior names that are among the three, each cache of a
current name is found with the entries it had, a cache of any other name is gone,
and nothing is created. -/
theorem activate_keeps_current_caches (w : World) :
    (activate w).caches
      = w.caches.filter (fun e => decide (e.1 ∈ [CACHE_NAME, RUNTIME_CACHE, API_CACHE]))
    ∧ (∀ name, name ∈ cachesKeys (activate w).caches ↔
        name ∈ cachesKeys w.caches ∧ name ∈ [CACHE_NAME, RUNTIME_CACHE, API_CACHE])
    ∧ (∀ name, name ∈ [CACHE_NAME, RUNTIME_CACHE, API_CACHE] →
        cachesGet (activate w).caches name = cachesGet w.caches name)
    ∧ (∀ name, name ∉ [CACHE_NAME, RUNTIME_CACHE, API_CACHE] →
        cachesGet (activate w).caches name = none)
    ∧ (activate w).caches.Sublist w.caches := by
  have hmain : (activate w).caches
      = w.caches.filter (fun e => decide (e.1 ∈ [CACHE_NAME, RUNTIME_CACHE, API_CACHE])) := by
    unfold activate
    rw [foldl_activateStep_caches]
    apply List.filter_congr
    intro e he
    have hmem : e.1 ∈ cachesKeys w.caches := List.mem_map_of_mem Prod.fst he
    have hmem2 : e.1 ∈ cachesKeys (w.emit Event.cachesKeys).caches := hmem
    cases hs : isStale e.1 with
    | false =>
      have := (isStale_eq_false_iff e.1).mp hs
      simp [this]
    | true =>
      have : ¬ e.1 ∈ [CACHE_NAME, RUNTIME_CACHE, API_CACHE] := by
        intro hin
        rw [(isStale_eq_false_iff e.1).mpr hin] at hs
        exact Bool.noConfusion hs
      simp only [Bool.true_and, this, decide_False]
      simpa using hmem
  refine ⟨hmain, ?_, ?_, ?_, ?_⟩
  · intro name
    rw [hmain]
    simp only [cachesKeys, List.mem_map, List.mem_filter, decide_eq_true_eq]
    constructor
    · rintro ⟨e, ⟨he, hin⟩, rfl⟩
      exact ⟨⟨e, he, rfl⟩, hin⟩
    · rintro ⟨⟨e, he, rfl⟩, hin⟩
      exact ⟨e, ⟨he, hin⟩, rfl⟩
  · intro name hin
    rw [hmain, cachesGet_filter_name w.caches
      (fun n => decide (n ∈ [CACHE_NAME, RUNTIME_CACHE, API_CACHE])) name]
    simp [hin]
  · intro name hout
    rw [hmain, cachesGet_filter_name w.caches
      (fun n => decide (n ∈ [CACHE_NAME, RUNTIME_CACHE, API_CACHE])) name]
    simp [hout]
  · rw [hmain]
    exact List.filter_sublist _

/-- The store after `activate` is the store before it without the stale caches. -/
theorem activate_caches_eq_filter (w : World) :
    (activate w).caches = w.caches.filter (fun e => !isStale e.1) := by
  unfold activate
  rw [foldl_activateStep_caches]
  apply List.filter_congr
  intro e he
  have hmem : e.1 ∈ cachesKeys w.caches := List.mem_map_of_mem Prod.fst he
  simp [hmem]

/-- C11: `activate` is idempotent on the store: running it a second time leaves
the caches, their names, order and entries, as the first run left them. -/
theorem activate_idempotent (w : World) :
    (activate (activate w)).caches = (activate w).caches
    ∧ cachesKeys (activate (activate w)).caches = cachesKeys (activate w).caches := by
  have h : (activate (activate w)).caches = (activate w).caches := by
    rw [activate_caches_eq_filter (activate w), activate_caches_eq_filter w,
      List.filter_filter]
    simp
  exact ⟨h, by rw [h]⟩

/-! ## Theorems: the navigation branch -/

/-- A GET request that passes the origin gate and is a navigation is handed to the
navigation branch. -/
theorem route_navigation (env : Env) (request : Request)
    (hmethod : request.method = "GET")
    (hgate : request.url.origin = env.origin
      ∨ includes request.url.hostname "thecocktaildb.com" = true
      ∨ includes request.url.hostname "allorigins.win" = true)
    (hnav : request.mode = "navigate" ∨ acceptContainsHtml request = true) :
    route env request = some Route.navigation := by
  have hn : isNavigation request = true := by
    simp only [isNavigation, acceptsHtml_eq, hmethod]
    rcases hnav with h | h <;> simp [h]
  have hg : ¬ (request.url.origin ≠ env.origin
      ∧ includes request.url.hostname "thecocktaildb.com" = false
      ∧ includes request.url.hostname "allorigins.win" = false) := by
    rintro ⟨h1, h2, h3⟩
    rcases hgate with h | h | h
    · exact h1 h
    · rw [h] at h2; exact Bool.noConfusion h2
    · rw [h] at h3; exact Bool.noConfusion h3
  simp only [route, hmethod, ne_eq, not_true_eq_false, if_false, hn, if_true]
  rw [if_neg hg]

/-- The named lookup hits the first cache of that name; when no cache of another
name holds the key, the unnamed lookup hits the same entry. -/
theorem cachesMatch_eq_of_only_in (s : CacheStorage) (name key : String) (r0 : Response)
    (hhit : cachesMatchIn s name key = some r0)
    (honly : ∀ n c, (n, c) ∈ s → n ≠ name → cacheMatch c key = none) :
    cachesMatch s key = some r0 := by
  induction s with
  | nil => simp [cachesMatchIn, cachesGet] at hhit
  | cons e rest ih =>
    obtain ⟨n, c1⟩ := e
    by_cases hn : n = name
    · have hc : cacheMatch c1 key = some r0 := by
        simpa [cachesMatchIn, cachesGet_cons, hn] using hhit
      simp [cachesMatch, hc]
    · have hc : cacheMatch c1 key = none := honly n c1 (by simp) hn
      have hrest : cachesMatchIn rest name key = some r0 := by
        simpa [cachesMatchIn, cachesGet_cons, hn] using hhit
      have := ih hrest (fun n2 c2 hmem hne => honly n2 c2 (by simp [hmem]) hne)
      simp [cachesMatch, hc, this]

/-- C12 as stated fails: the static cache is empty and the network is down, but
the runtime cache holds an entry for `/index.html`; the handler answers the
navigation with that entry (status 200) and not with the synthesised 503. -/
theorem navigate_offline_served_from_runtime :
    cachesGet runtimeIndexWorld.caches CACHE_NAME = some []
    ∧ indexRequest.method = "GET"
    ∧ acceptContainsHtml indexRequest = true
    ∧ offlineEnv.fetch indexRequest = Except.error "offline"
    ∧ onFetch offlineEnv indexRequest runtimeIndexWorld
        = (Intercept.respondWith (Settled.resolved staleResponse),
            { caches := runtimeIndexWorld.caches,
              log := [Event.cachesMatch "https://app.example/index.html"] })
    ∧ staleResponse.status = 200 :=
  ⟨by decide, by decide, by decide, rfl, by decide, by decide⟩

/-- C12, amended: for a navigation request the handler intercepts (a GET to the
worker's own origin, such as one for `/index.html`, with mode `navigate` or an
accept header containing `text/html`): if no cache at all holds an entry for
`/index.html` and the network fetch fails, the failure is not surfaced; the handler
responds with the synthesised response, whose status is 503 and whose
`Content-Type` header is `text/html`, and the store is left as it was. -/
theorem navigate_offline_synthesised (env : Env) (request : Request) (w : World)
    (error : String)
    (hmethod : request.method = "GET") (horigin : request.url.origin = env.origin)
    (hnav : request.mode = "navigate" ∨ acceptContainsHtml request = true)
    (hmiss : cachesMatch w.caches (indexKey env) = none)
    (hfetch : env.fetch request = Except.error error) :
    ∃ r, (onFetch env request w).1 = Intercept.respondWith (Settled.resolved r)
      ∧ r.status = 503
      ∧ r.statusText = "Service Unavailable"
      ∧ r.headers = [("Content-Type", "text/html")]
      ∧ (onFetch env request w).2.caches = w.caches := by
  have hr := route_navigation env request hmethod (Or.inl horigin) hnav
  refine ⟨offlineResponse, ?_, rfl, rfl, rfl, ?_⟩
  · simp [onFetch, hr, Route.run, navigate, hmiss, hfetch, World.emit]
  · simp [onFetch, hr, Route.run, navigate, hmiss, hfetch, World.emit]

theorem navigate_offline_synthesised_witness :
    ∃ r, (onFetch offlineEnv indexRequest emptyWorld).1
        = Intercept.respondWith (Settled.resolved r)
      ∧ r.status = 503
      ∧ r.statusText = "Service Unavailable"
      ∧ r.headers = [("Content-Type", "text/html")]
      ∧ (onFetch offlineEnv indexRequest emptyWorld).2.caches = emptyWorld.caches :=
  navigate_offline_synthesised offlineEnv indexRequest emptyWorld "offline"
    (by decide) (by decide) (Or.inl (by decide)) (by decide) rfl

/-- C13 as stated fails, in three ways. The static cache holds `/index.html`, but
a cache created before it holds another entry under that key, and the navigation
is answered with that other entry. A navigation by POST is not intercepted at all,
and neither is a request accepting HTML that goes to a foreign host the origin gate
does not admit. -/
theorem navigate_not_always_static_entry :
    (cachesMatchIn shadowedIndexWorld.caches CACHE_NAME (indexKey onlineEnv) = some liveResponse
      ∧ (onFetch onlineEnv indexRequest shadowedIndexWorld).1
          = Intercept.respondWith (Settled.resolved staleResponse)
      ∧ staleResponse ≠ liveResponse)
    ∧ (cachesMatchIn installedWorld.caches CACHE_NAME (indexKey onlineEnv) = some liveResponse
      ∧ ({ indexRequest with method := "POST" } : Request).mode = "navigate"
      ∧ (onFetch onlineEnv { indexRequest with method := "POST" } installedWorld).1
          = Intercept.passThrough)
    ∧ (cachesMatchIn installedWorld.caches CACHE_NAME (indexKey onlineEnv) = some liveResponse
      ∧ acceptContainsHtml { relayMirrorRequest with
            url := { relayMirrorRequest.url with hostname := "cdn.example",
                                                 origin := "https://cdn.example" },
            accept := some "text/html" } = true
      ∧ (onFetch onlineEnv { relayMirrorRequest with
            url := { relayMirrorRequest.url with hostname := "cdn.example",
                                                 origin := "https://cdn.example" },
            accept := some "text/html" } installedWorld).1
          = Intercept.passThrough) := by
  decide

/-- C13, amended: for a navigation request the handler intercepts (a GET that
passes the origin gate, with mode `navigate` or an accept header containing
`text/html`), whatever URL it targets: if the static cache holds an entry for
`/index.html`, the response is the first entry stored under `/index.html` over all
caches in creation order, which is the static entry whenever no cache of another
name holds one; no network fetch is made and the store is left as it was. -/
theorem navigate_index_hit (env : Env) (request : Request) (w : World) (r0 : Response)
    (hmethod : request.method = "GET")
    (hgate : request.url.origin = env.origin
      ∨ includes request.url.hostname "thecocktaildb.com" = true
      ∨ includes request.url.hostname "allorigins.win" = true)
    (hnav : request.mode = "navigate" ∨ acceptContainsHtml request = true)
    (hhit : cachesMatchIn w.caches CACHE_NAME (indexKey env) = some r0) :
    (∃ r, (onFetch env request w).1 = Intercept.respondWith (Settled.resolved r)
        ∧ cachesMatch w.caches (indexKey env) = some r
        ∧ ((∀ n c, (n, c) ∈ w.caches → n ≠ CACHE_NAME → cacheMatch c (indexKey env) = none) →
            r = r0))
    ∧ (onFetch env request w).2.fetchCount = w.fetchCount
    ∧ (onFetch env request w).2.caches = w.caches := by
  have hr := route_navigation env request hmethod hgate hnav
  obtain ⟨r, hm⟩ := cachesMatch_isSome_of_cachesMatchIn _ _ _ _ hhit
  have hrun : onFetch env request w
      = (Intercept.respondWith (Settled.resolved r),
          w.emit (Event.cachesMatch (indexKey env))) := by
    simp [onFetch, hr, Route.run, navigate, hm]
  rw [hrun]
  refine ⟨⟨r, rfl, hm, ?_⟩, fetchCount_emit_not_fetch _ _ rfl, rfl⟩
  intro honly
  have := cachesMatch_eq_of_only_in _ _ _ _ hhit honly
  rw [hm] at this
  exact Option.some.inj this

theorem navigate_index_hit_witness :
    (∃ r, (onFetch offlineEnv aboutRequest installedWorld).1
          = Intercept.respondWith (Settled.resolved r)
        ∧ cachesMatch installedWorld.caches (indexKey offlineEnv) = some r
        ∧ ((∀ n c, (n, c) ∈ installedWorld.caches → n ≠ CACHE_NAME →
              cacheMatch c (indexKey offlineEnv) = none) → r = liveResponse))
    ∧ (onFetch offlineEnv aboutRequest installedWorld).2.fetchCount
        = installedWorld.fetchCount
    ∧ (onFetch offlineEnv aboutRequest installedWorld).2.caches = installedWorld.caches :=
  navigate_index_hit offlineEnv aboutRequest installedWorld liveResponse
    (by decide) (Or.inl (by decide)) (Or.inl (by decide)) (by decide)

/-! ## Theorems: failure and non-ok answers -/

/-- C17: when the request's key is in no cache and the network fetch fails,
`cacheFirst` answers with the stored index document if the request accepts HTML or
targets the root path and an entry for `/index.html` is stored; in every other case
it fails with the error of the fetch. The store is left as it was. -/
theorem cacheFirst_offline (env : Env) (request : Request) (w : World) (error : String)
    (hmiss : cachesMatch w.caches request.key = none)
    (hfetch : env.fetch request = Except.error error) :
    (∀ r, (acceptContainsHtml request = true ∨ isRootPath request.url = true) →
        cachesMatch w.caches (indexKey env) = some r →
        (cacheFirst env request w).1 = Settled.resolved r)
    ∧ (¬ ((acceptContainsHtml request = true ∨ isRootPath request.url = true)
          ∧ (cachesMatch w.caches (indexKey env)).isSome = true) →
        (cacheFirst env request w).1 = Settled.rejected error)
    ∧ (cacheFirst env request w).2.caches = w.caches := by
  refine ⟨?_, ?_, ?_⟩
  · intro r hcond hidx
    cases ha : acceptsHtml request with
    | true => simp [cacheFirst, hmiss, hfetch, cacheFirstCatch, ha, World.emit, hidx]
    | false =>
      have hroot : isRootPath request.url = true := by
        rcases hcond with h | h
        · rw [← acceptsHtml_eq, ha] at h; exact Bool.noConfusion h
        · exact h
      simp [cacheFirst, hmiss, hfetch, cacheFirstCatch, ha, hroot, World.emit, hidx]
  · intro hno
    cases ha : acceptsHtml request <;> cases hroot : isRootPath request.url <;>
      cases hidx : cachesMatch w.caches (indexKey env) <;>
      simp [cacheFirst, hmiss, hfetch, cacheFirstCatch, ha, hroot, World.emit, hidx]
    all_goals
      rw [← acceptsHtml_eq, ha, hroot, hidx] at hno
      simp at hno
  · cases ha : acceptsHtml request <;> cases hroot : isRootPath request.url <;>
      cases hidx : cachesMatch w.caches (indexKey env) <;>
      simp [cacheFirst, hmiss, hfetch, cacheFirstCatch, ha, hroot, World.emit, hidx]

theorem cacheFirst_offline_witness :
    (cacheFirst offlineEnv (getRequest "/" "") installedWorld).1 = Settled.resolved liveResponse
    ∧ (cacheFirst offlineEnv (getRequest "/app.js" "script") installedWorld).1
        = Settled.rejected "offline"
    ∧ (cacheFirst offlineEnv (getRequest "/app.js" "script") installedWorld).2.caches
        = installedWorld.caches :=
  ⟨(cacheFirst_offline offlineEnv (getRequest "/" "") installedWorld "offline"
      (by decide) rfl).1 liveResponse (Or.inr (by decide)) (by decide),
   (cacheFirst_offline offlineEnv (getRequest "/app.js" "script") installedWorld "offline"
      (by decide) rfl).2.1 (by decide),
   (cacheFirst_offline offlineEnv (getRequest "/app.js" "script") installedWorld "offline"
      (by decide) rfl).2.2⟩

/-- C18: a response whose `ok` flag is false is never stored. When the network
answers with such a response, `networkFirst`, `cacheFirst` on a miss and the
navigation branch on a miss return that very response and leave the store as it
was; after `staleWhileRevalidate` every lookup, in every cache and under every key,
finds what it found before. -/
theorem non_ok_response_not_stored (env : Env) (request : Request) (w : World)
    (r : Response) (hfetch : env.fetch request = Except.ok r) (hnok : r.ok = false) :
    ((networkFirst env request w).1 = Settled.resolved r
      ∧ (networkFirst env request w).2.caches = w.caches)
    ∧ (cachesMatch w.caches request.key = none →
        (cacheFirst env request w).1 = Settled.resolved r
        ∧ (cacheFirst env request w).2.caches = w.caches)
    ∧ (∀ name key, cachesMatchIn (staleWhileRevalidate env request w).2.caches name key
        = cachesMatchIn w.caches name key)
    ∧ (cachesMatch w.caches (indexKey env) = none →
        (navigate env request w).1 = Settled.resolved r
        ∧ (navigate env request w).2.caches = w.caches) := by
  refine ⟨?_, ?_, ?_, ?_⟩
  · simp [networkFirst, hfetch, hnok, World.emit]
  · intro hmiss
    simp [cacheFirst, hmiss, hfetch, hnok, World.emit]
  · intro name key
    have hcaches : (staleWhileRevalidate env request w).2.caches
        = cachesOpen w.caches RUNTIME_CACHE := by
      simp only [staleWhileRevalidate, hfetch, hnok, World.open, World.emit]
      cases cachesMatchIn (cachesOpen w.caches RUNTIME_CACHE) RUNTIME_CACHE request.key <;> rfl
    rw [hcaches, cachesMatchIn_cachesOpen]
  · intro hmiss
    simp [navigate, hmiss, hfetch, hnok, World.emit]

theorem non_ok_response_not_stored_witness :
    ((networkFirst notFoundEnv (getRequest "/api/x" "") emptyWorld).1
        = Settled.resolved notFoundResponse
      ∧ (networkFirst notFoundEnv (getRequest "/api/x" "") emptyWorld).2.caches
          = emptyWorld.caches)
    ∧ (cacheFirst notFoundEnv (getRequest "/api/x" "") emptyWorld).1
        = Settled.resolved notFoundResponse
    ∧ cachesMatchIn (staleWhileRevalidate notFoundEnv (getRequest "/api/x" "")
          emptyWorld).2.caches RUNTIME_CACHE (getRequest "/api/x" "").key = none
    ∧ (navigate notFoundEnv (getRequest "/api/x" "") emptyWorld).1
        = Settled.resolved notFoundResponse :=
  ⟨(non_ok_response_not_stored notFoundEnv (getRequest "/api/x" "") emptyWorld
      notFoundResponse rfl (by decide)).1,
   ((non_ok_response_not_stored notFoundEnv (getRequest "/api/x" "") emptyWorld
      notFoundResponse rfl (by decide)).2.1 (by decide)).1,
   (non_ok_response_not_stored notFoundEnv (getRequest "/api/x" "") emptyWorld
      notFoundResponse rfl (by decide)).2.2.1 RUNTIME_CACHE (getRequest "/api/x" "").key,
   ((non_ok_response_not_stored notFoundEnv (getRequest "/api/x" "") emptyWorld
      notFoundResponse rfl (by decide)).2.2.2 (by decide)).1⟩

/-! ## Lemmas about batches -/

theorem fetchBatch_cons (env : Env) (request : Request) (rest : List Request) :
    fetchBatch env (request :: rest)
      = match env.fetch request with
        | Except.ok r =>
          if r.ok then
            match fetchBatch env rest with
            | some entries => some ((request.key, r) :: entries)
            | none => none
          else none
        | Except.error _ => none := rfl

/-- One request of the batch that fails, or is answered with a status that is not
ok, leaves the batch without responses. -/
theorem fetchBatch_eq_none (env : Env) (requests : List Request)
    (hbad : ∃ q ∈ requests, ∀ r, env.fetch q = Except.ok r → r.ok = false) :
    fetchBatch env requests = none := by
  induction requests with
  | nil => simp at hbad
  | cons q rest ih =>
    rw [fetchBatch_cons]
    cases hf : env.fetch q with
    | error e => rfl
    | ok r =>
      cases hok : r.ok with
      | false => simp [hok]
      | true =>
        obtain ⟨q2, hmem, hq2⟩ := hbad
        have hrest : ∃ q ∈ rest, ∀ r, env.fetch q = Except.ok r → r.ok = false := by
          rcases List.mem_cons.mp hmem with h | h
          · subst h
            have := hq2 r hf
            rw [hok] at this
            exact Bool.noConfusion this
          · exact ⟨q2, h, hq2⟩
        simp [ih hrest]

/-- What a batch that has responses consists of: one entry per request, in order,
each the ok answer of the network to that request. -/
theorem fetchBatch_eq_some (env : Env) (requests : List Request)
    (entries : List (String × Response)) (h : fetchBatch env requests = some entries) :
    entries.map Prod.fst = requests.map Request.key
    ∧ (∀ q ∈ requests, ∃ r, env.fetch q = Except.ok r ∧ r.ok = true ∧ (q.key, r) ∈ entries)
    ∧ (∀ e ∈ entries, ∃ q ∈ requests, e.1 = q.key ∧ env.fetch q = Except.ok e.2) := by
  induction requests generalizing entries with
  | nil =>
    have : entries = [] := by simpa [fetchBatch] using h.symm
    subst this
    simp
  | cons q rest ih =>
    rw [fetchBatch_cons] at h
    cases hf : env.fetch q with
    | error e => simp [hf] at h
    | ok r =>
      cases hok : r.ok with
      | false => simp [hf, hok] at h
      | true =>
        cases hrest : fetchBatch env rest with
        | none => simp [hf, hok, hrest] at h
        | some es =>
          have he : entries = (q.key, r) :: es := by simpa [hf, hok, hrest] using h.symm
          subst he
          obtain ⟨h1, h2, h3⟩ := ih es hrest
          refine ⟨by simp [h1], ?_, ?_⟩
          · intro q2 hmem
            rcases List.mem_cons.mp hmem with hq | hq
            · subst hq
              exact ⟨r, hf, hok, by simp⟩
            · obtain ⟨r2, hf2, hok2, hin⟩ := h2 q2 hq
              exact ⟨r2, hf2, hok2, List.mem_cons_of_mem _ hin⟩
          · intro e hmem
            rcases List.mem_cons.mp hmem with hq | hq
            · subst hq
              exact ⟨q, by simp, rfl, hf⟩
            · obtain ⟨q2, hq2, hk, hf2⟩ := h3 e hq
              exact ⟨q2, List.mem_cons_of_mem _ hq2, hk, hf2⟩

/-- A batch in which every request is answered with an ok response has responses. -/
theorem fetchBatch_isSome (env : Env) (requests : List Request)
    (hgood : ∀ q ∈ requests, ∃ r, env.fetch q = Except.ok r ∧ r.ok = true) :
    ∃ entries, fetchBatch env requests = some entries := by
  induction requests with
  | nil => exact ⟨[], rfl⟩
  | cons q rest ih =>
    obtain ⟨r, hf, hok⟩ := hgood q (by simp)
    obtain ⟨es, hes⟩ := ih (fun q2 hq2 => hgood q2 (List.mem_cons_of_mem _ hq2))
    exact ⟨(q.key, r) :: es, by rw [fetchBatch_cons]; simp [hf, hok, hes]⟩

theorem cachesHas_cachesPut (s : CacheStorage) (name key n : String) (r : Response) :
    cachesHas (cachesPut s name key r) n = cachesHas s n := by
  unfold cachesHas
  by_cases h : n = name
  · subst h
    rw [cachesGet_cachesPut_self]
    cases cachesGet s n <;> rfl
  · rw [cachesGet_cachesPut_other _ _ _ _ _ h]

theorem cachesHas_cachesOpen (s : CacheStorage) (name : String) :
    cachesHas (cachesOpen s name) name = true := by
  unfold cachesHas
  rw [cachesGet_cachesOpen_self]
  rfl

/-- A write under another name or another key does not change what a lookup
finds. -/
theorem cachesMatchIn_cachesPut_other (s : CacheStorage) (name key name2 key2 : String)
    (r : Response) (h : name2 ≠ name ∨ key2 ≠ key) :
    cachesMatchIn (cachesPut s name key r) name2 key2 = cachesMatchIn s name2 key2 := by
  unfold cachesMatchIn
  by_cases hn : name2 = name
  · subst hn
    have hk : key2 ≠ key := by
      rcases h with h | h
      · exact absurd rfl h
      · exact h
    rw [cachesGet_cachesPut_self]
    cases cachesGet s name2 with
    | none => rfl
    | some c => exact cacheMatch_cachePut_other c key key2 r hk
  · rw [cachesGet_cachesPut_other _ _ _ _ _ hn]

/-- A write into an existing cache is found by the lookup in that cache. -/
theorem cachesMatchIn_cachesPut_self (s : CacheStorage) (name key : String) (r : Response)
    (hhas : cachesHas s name = true) :
    cachesMatchIn (cachesPut s name key r) name key = some r := by
  unfold cachesMatchIn
  rw [cachesGet_cachesPut_self]
  unfold cachesHas at hhas
  cases hg : cachesGet s name with
  | none => rw [hg] at hhas; exact Bool.noConfusion hhas
  | some c => exact cacheMatch_cachePut_self c key r

theorem cachesPutAll_cons (s : CacheStorage) (name : String) (e : String × Response)
    (rest : List (String × Response)) :
    cachesPutAll s name (e :: rest) = cachesPutAll (cachesPut s name e.1 e.2) name rest := rfl

/-- The writes of a batch leave alone the other caches, and the keys that are not
in the batch. -/
theorem cachesMatchIn_cachesPutAll_other (s : CacheStorage) (name name2 key2 : String)
    (entries : List (String × Response))
    (h : name2 ≠ name ∨ key2 ∉ entries.map Prod.fst) :
    cachesMatchIn (cachesPutAll s name entries) name2 key2 = cachesMatchIn s name2 key2 := by
  induction entries generalizing s with
  | nil => rfl
  | cons e rest ih =>
    rw [cachesPutAll_cons, ih]
    · apply cachesMatchIn_cachesPut_other
      rcases h with h | h
      · exact Or.inl h
      · exact Or.inr (fun hk => h (by simp [hk]))
    · rcases h with h | h
      · exact Or.inl h
      · exact Or.inr (fun hk => h (by simp [hk]))

/-- After the writes of a batch with pairwise distinct keys into an existing cache,
each key of the batch holds the response written under it. -/
theorem cachesMatchIn_cachesPutAll_self (s : CacheStorage) (name key : String) (r : Response)
    (entries : List (String × Response)) (hhas : cachesHas s name = true)
    (hnodup : (entries.map Prod.fst).Nodup) (hmem : (key, r) ∈ entries) :
    cachesMatchIn (cachesPutAll s name entries) name key = some r := by
  induction entries generalizing s with
  | nil => simp at hmem
  | cons e rest ih =>
    rw [cachesPutAll_cons]
    have hnd : e.1 ∉ rest.map Prod.fst ∧ (rest.map Prod.fst).Nodup := by
      simpa using hnodup
    rcases List.mem_cons.mp hmem with h | h
    · subst h
      rw [cachesMatchIn_cachesPutAll_other _ _ _ _ _ (Or.inr hnd.1)]
      exact cachesMatchIn_cachesPut_self s name key r hhas
    · exact ih _ (by rw [cachesHas_cachesPut]; exact hhas) hnd.2 h

/-- A rejected batch writes nothing. -/
theorem addAll_rejected_caches (env : Env) (resolve : String → URL) (name : String)
    (urls : List String) (w : World)
    (h : (addAll env resolve name urls w).1 = Completion.rejected) :
    (addAll env resolve name urls w).2.caches = w.caches := by
  simp only [addAll] at h ⊢
  cases hb : fetchBatch env (urls.map (requestFor resolve)) with
  | none => simp
  | some entries =>
    simp only [hb] at h ⊢
    split
    · rename_i hc
      simp [hc] at h
    · rfl

/-- A batch with a URL that cannot be fetched, or is answered with a status that is
not ok, is rejected. -/
theorem addAll_rejected_of_bad (env : Env) (resolve : String → URL) (name : String)
    (urls : List String) (w : World)
    (hbad : ∃ u ∈ urls, ∀ r, env.fetch (requestFor resolve u) = Except.ok r → r.ok = false) :
    (addAll env resolve name urls w).1 = Completion.rejected := by
  have hb : fetchBatch env (urls.map (requestFor resolve)) = none := by
    apply fetchBatch_eq_none
    obtain ⟨u, hu, hr⟩ := hbad
    exact ⟨requestFor resolve u, List.mem_map_of_mem _ hu, hr⟩
  simp [addAll, hb]

/-- A batch of pairwise distinct URLs, each answered with an ok response that the
store accepts, is fulfilled, and afterwards every URL of the batch holds its
response in the cache. -/
theorem addAll_fulfilled (env : Env) (resolve : String → URL) (name : String)
    (urls : List String) (w : World)
    (hgood : ∀ u ∈ urls, ∃ r, env.fetch (requestFor resolve u) = Except.ok r ∧ r.ok = true
      ∧ env.putAccepted name (requestFor resolve u).key r = true)
    (hnodup : (urls.map (fun u => (requestFor resolve u).key)).Nodup)
    (hhas : cachesHas w.caches name = true) :
    (addAll env resolve name urls w).1 = Completion.fulfilled
    ∧ ∀ u ∈ urls, ∀ r, env.fetch (requestFor resolve u) = Except.ok r →
        cachesMatchIn (addAll env resolve name urls w).2.caches name (requestFor resolve u).key
          = some r := by
  have hg : ∀ q ∈ urls.map (requestFor resolve), ∃ r, env.fetch q = Except.ok r ∧ r.ok = true := by
    intro q hq
    obtain ⟨u, hu, rfl⟩ := List.mem_map.mp hq
    obtain ⟨r, hf, hok, _⟩ := hgood u hu
    exact ⟨r, hf, hok⟩
  obtain ⟨entries, hb⟩ := fetchBatch_isSome env _ hg
  obtain ⟨hkeys, hreq, hent⟩ := fetchBatch_eq_some env _ entries hb
  have hnd : (entries.map Prod.fst).Nodup := by
    rw [hkeys, List.map_map]
    exact hnodup
  have hacc : entries.all (fun e => env.putAccepted name e.1 e.2) = true := by
    rw [List.all_eq_true]
    intro e he
    obtain ⟨q, hq, hk, hf⟩ := hent e he
    obtain ⟨u, hu, rfl⟩ := List.mem_map.mp hq
    obtain ⟨r, hf2, _, hput⟩ := hgood u hu
    have hr : e.2 = r := by
      rw [hf2] at hf
      exact (Except.ok.inj hf).symm
    rw [hk, hr]
    exact hput
  have hrun : addAll env resolve name urls w
      = (Completion.fulfilled,
          { caches := cachesPutAll w.caches name entries,
            log := (w.log ++ (urls.map (requestFor resolve)).map (fun q => Event.fetch q.key))
              ++ entries.map (fun e => Event.cachePut name e.1) }) := by
    simp [addAll, hb, hnd, hacc]
  rw [hrun]
  refine ⟨rfl, ?_⟩
  intro u hu r hf
  obtain ⟨r2, hf2, _, hin⟩ := hreq (requestFor resolve u) (List.mem_map_of_mem _ hu)
  have hr : r2 = r := by
    rw [hf] at hf2
    exact (Except.ok.inj hf2).symm
  rw [hr] at hin
  exact cachesMatchIn_cachesPutAll_self _ _ _ _ _ hhas hnd hin

/-! ## Theorems: the message and install handlers -/

/-- C14 as stated fails: of the batch `/a.png`, `/b.png` only `/a.png` cannot be
reached, `/b.png` is answered with an ok response the store would accept, and yet
`/b.png` is not in the runtime cache afterwards: the batch is rejected as a
whole. -/
theorem cacheUrls_one_failure_spoils_batch :
    flakyEnv.fetch (requestFor resolvePath "/a.png") = Except.error "unreachable"
    ∧ flakyEnv.fetch (requestFor resolvePath "/b.png") = Except.ok liveResponse
    ∧ liveResponse.ok = true
    ∧ (onMessage flakyEnv resolvePath (Message.cacheUrls ["/a.png", "/b.png"]) emptyWorld).1
        = Completion.rejected
    ∧ cachesMatchIn (onMessage flakyEnv resolvePath (Message.cacheUrls ["/a.png", "/b.png"])
          emptyWorld).2.caches RUNTIME_CACHE (requestFor resolvePath "/b.png").key = none :=
  ⟨rfl, rfl, by decide, by decide, by decide⟩

/-- C14, amended: a `cache-urls` message is handled as one batch, all or nothing.
When every URL of the list is answered with an ok response that the store accepts,
and no two of them have the same key, every URL of the list is present in the
runtime cache afterwards, with its response (so for `/a.png`, `/b.png`, both
reachable, both keys are present). When one URL of the list cannot be fetched, or
is answered with a status that is not ok, the batch is rejected and no lookup in
any cache finds anything it did not find before. -/
theorem onMessage_cacheUrls (env : Env) (resolve : String → URL) (urls : List String)
    (w : World) :
    ((∀ u ∈ urls, ∃ r, env.fetch (requestFor resolve u) = Except.ok r ∧ r.ok = true
          ∧ env.putAccepted RUNTIME_CACHE (requestFor resolve u).key r = true) →
        (urls.map (fun u => (requestFor resolve u).key)).Nodup →
        (onMessage env resolve (Message.cacheUrls urls) w).1 = Completion.fulfilled
        ∧ ∀ u ∈ urls, ∀ r, env.fetch (requestFor resolve u) = Except.ok r →
            cachesMatchIn (onMessage env resolve (Message.cacheUrls urls) w).2.caches
              RUNTIME_CACHE (requestFor resolve u).key = some r)
    ∧ ((∃ u ∈ urls, ∀ r, env.fetch (requestFor resolve u) = Except.ok r → r.ok = false) →
        (onMessage env resolve (Message.cacheUrls urls) w).1 = Completion.rejected
        ∧ ∀ name key,
            cachesMatchIn (onMessage env resolve (Message.cacheUrls urls) w).2.caches name key
              = cachesMatchIn w.caches name key) := by
  constructor
  · intro hgood hnodup
    exact addAll_fulfilled env resolve RUNTIME_CACHE urls (w.open RUNTIME_CACHE) hgood hnodup
      (cachesHas_cachesOpen _ _)
  · intro hbad
    have hrej := addAll_rejected_of_bad env resolve RUNTIME_CACHE urls (w.open RUNTIME_CACHE) hbad
    refine ⟨hrej, ?_⟩
    intro name key
    have hc := addAll_rejected_caches env resolve RUNTIME_CACHE urls (w.open RUNTIME_CACHE) hrej
    simp only [onMessage]
    rw [hc]
    exact cachesMatchIn_cachesOpen _ _ _ _

theorem onMessage_cacheUrls_witness :
    cachesMatchIn (onMessage onlineEnv resolvePath (Message.cacheUrls ["/a.png", "/b.png"])
        emptyWorld).2.caches RUNTIME_CACHE (requestFor resolvePath "/a.png").key
      = some liveResponse
    ∧ cachesMatchIn (onMessage onlineEnv resolvePath (Message.cacheUrls ["/a.png", "/b.png"])
        emptyWorld).2.caches RUNTIME_CACHE (requestFor resolvePath "/b.png").key
      = some liveResponse :=
  ⟨((onMessage_cacheUrls onlineEnv resolvePath ["/a.png", "/b.png"] emptyWorld).1
      (fun _ _ => ⟨liveResponse, rfl, rfl, rfl⟩) (by decide)).2 "/a.png" (by decide)
      liveResponse rfl,
   ((onMessage_cacheUrls onlineEnv resolvePath ["/a.png", "/b.png"] emptyWorld).1
      (fun _ _ => ⟨liveResponse, rfl, rfl, rfl⟩) (by decide)).2 "/b.png" (by decide)
      liveResponse rfl⟩

/-- The install handler in one equation: its promise is fulfilled, and its world
is that of the batch when the batch is fulfilled and that of the fallback
`cache.add` otherwise. -/
theorem install_eq (env : Env) (resolve : String → URL) (w : World) :
    install env resolve w
      = (Completion.fulfilled,
          if (addAll env resolve CACHE_NAME STATIC_CACHE_URLS (w.open CACHE_NAME)).1
              = Completion.fulfilled then
            (addAll env resolve CACHE_NAME STATIC_CACHE_URLS (w.open CACHE_NAME)).2
          else
            (cacheAdd env resolve CACHE_NAME "/index.html"
              (addAll env resolve CACHE_NAME STATIC_CACHE_URLS (w.open CACHE_NAME)).2).2) := by
  simp only [install]
  generalize addAll env resolve CACHE_NAME STATIC_CACHE_URLS (w.open CACHE_NAME) = p
  obtain ⟨c, w2⟩ := p
  cases c with
  | fulfilled => simp
  | rejected =>
    simp only
    generalize cacheAdd env resolve CACHE_NAME "/index.html" w2 = p3
    obtain ⟨c3, w3⟩ := p3
    cases c3 <;> simp

/-- C15: the promise of the install handler is fulfilled whatever the network and
the store do with the declared assets. An asset that cannot be fetched makes the
batch fail; when the batch fails the handler falls back to `cache.add` of the
document `/index.html`: if that single fetch-and-store succeeds (the network answers
with an ok response and the store accepts the write), the document is in the static
cache afterwards, and if it fails too, installation still completes, with every
lookup finding what it found before. -/
theorem install_completes (env : Env) (resolve : String → URL) (w : World) :
    (install env resolve w).1 = Completion.fulfilled
    ∧ ((∃ u ∈ STATIC_CACHE_URLS,
          ∀ r, env.fetch (requestFor resolve u) = Except.ok r → r.ok = false) →
        (addAll env resolve CACHE_NAME STATIC_CACHE_URLS (w.open CACHE_NAME)).1
          = Completion.rejected)
    ∧ ((addAll env resolve CACHE_NAME STATIC_CACHE_URLS (w.open CACHE_NAME)).1
          = Completion.rejected →
        ∀ r, env.fetch (requestFor resolve "/index.html") = Except.ok r → r.ok = true →
          env.putAccepted CACHE_NAME (requestFor resolve "/index.html").key r = true →
          cachesMatchIn (install env resolve w).2.caches CACHE_NAME
            (requestFor resolve "/index.html").key = some r)
    ∧ ((addAll env resolve CACHE_NAME STATIC_CACHE_URLS (w.open CACHE_NAME)).1
          = Completion.rejected →
        (∀ r, env.fetch (requestFor resolve "/index.html") = Except.ok r → r.ok = false) →
        (install env resolve w).1 = Completion.fulfilled
        ∧ ∀ name key, cachesMatchIn (install env resolve w).2.caches name key
            = cachesMatchIn w.caches name key) := by
  have hdone : (install env resolve w).1 = Completion.fulfilled := by
    rw [install_eq]
  refine ⟨hdone, addAll_rejected_of_bad env resolve CACHE_NAME STATIC_CACHE_URLS _, ?_, ?_⟩
  · intro hrej r hf hok hput
    have hc := addAll_rejected_caches env resolve CACHE_NAME STATIC_CACHE_URLS _ hrej
    have hstate : (install env resolve w).2
        = (cacheAdd env resolve CACHE_NAME "/index.html"
            (addAll env resolve CACHE_NAME STATIC_CACHE_URLS (w.open CACHE_NAME)).2).2 := by
      rw [install_eq, hrej]
      simp
    rw [hstate]
    have hhas : cachesHas
        (addAll env resolve CACHE_NAME STATIC_CACHE_URLS (w.open CACHE_NAME)).2.caches
        CACHE_NAME = true := by
      rw [hc]
      exact cachesHas_cachesOpen _ _
    exact (addAll_fulfilled env resolve CACHE_NAME ["/index.html"] _
      (by
        intro u hu
        have : u = "/index.html" := by simpa using hu
        subst this
        exact ⟨r, hf, hok, hput⟩)
      (by simp) hhas).2 "/index.html" (by simp) r hf
  · intro hrej hbad
    refine ⟨hdone, ?_⟩
    intro name key
    have hc := addAll_rejected_caches env resolve CACHE_NAME STATIC_CACHE_URLS _ hrej
    have hrej2 : (cacheAdd env resolve CACHE_NAME "/index.html"
        (addAll env resolve CACHE_NAME STATIC_CACHE_URLS (w.open CACHE_NAME)).2).1
        = Completion.rejected :=
      addAll_rejected_of_bad env resolve CACHE_NAME ["/index.html"] _
        ⟨"/index.html", by simp, hbad⟩
    have hc2 := addAll_rejected_caches env resolve CACHE_NAME ["/index.html"] _ hrej2
    have hstate : (install env resolve w).2
        = (cacheAdd env resolve CACHE_NAME "/index.html"
            (addAll env resolve CACHE_NAME STATIC_CACHE_URLS (w.open CACHE_NAME)).2).2 := by
      rw [install_eq, hrej]
      simp
    rw [hstate]
    unfold cacheAdd at hc2 ⊢
    rw [hc2, hc]
    exact cachesMatchIn_cachesOpen _ _ _ _

theorem install_completes_witness :
    (install iconlessEnv resolvePath emptyWorld).1 = Completion.fulfilled
    ∧ (addAll iconlessEnv resolvePath CACHE_NAME STATIC_CACHE_URLS
        (emptyWorld.open CACHE_NAME)).1 = Completion.rejected
    ∧ cachesMatchIn (install iconlessEnv resolvePath emptyWorld).2.caches CACHE_NAME
        (requestFor resolvePath "/index.html").key = some liveResponse
    ∧ cachesMatchIn (install iconlessEnv resolvePath emptyWorld).2.caches CACHE_NAME
        (requestFor resolvePath "/styles.css").key = none
    ∧ (install offlineEnv resolvePath emptyWorld).1 = Completion.fulfilled :=
  ⟨(install_completes iconlessEnv resolvePath emptyWorld).1,
   (install_completes iconlessEnv resolvePath emptyWorld).2.1
      ⟨"/icons/icon-72x72.svg", by decide, fun r h => by cases h⟩,
   (install_completes iconlessEnv resolvePath emptyWorld).2.2.1 (by decide) liveResponse rfl
      rfl rfl,
   by decide,
   (install_completes offlineEnv resolvePath emptyWorld).1⟩

/-! ## Lemmas about the API module -/

theorem sameValueZero_iff_left (a b : JsVal) (ha : a.isPrimitive = true) :
    sameValueZero a b = true ↔ a = b := by
  cases a <;> cases b <;> simp [sameValueZero, JsVal.isPrimitive] at ha ⊢

theorem sameValueZero_iff_right (a b : JsVal) (hb : b.isPrimitive = true) :
    sameValueZero a b = true ↔ a = b := by
  cases a <;> cases b <;> simp [sameValueZero, JsVal.isPrimitive] at hb ⊢

/-- For a primitive value, `set.has` is membership. -/
theorem setHas_iff (members : List JsVal) (value : JsVal) (h : value.isPrimitive = true) :
    setHas members value = true ↔ value ∈ members := by
  unfold setHas
  rw [List.any_eq_true]
  constructor
  · rintro ⟨m, hm, hs⟩
    rw [sameValueZero_iff_right m value h] at hs
    rw [← hs]
    exact hm
  · intro hm
    exact ⟨value, hm, (sameValueZero_iff_right value value h).mpr rfl⟩

/-- Reading the `idDrink` of a record does not throw and yields a primitive. -/
theorem getProp_of_isRecord (x : JsVal) (h : isRecord x = true) :
    getProp x "idDrink" = Except.ok (idDrinkOf x) ∧ (idDrinkOf x).isPrimitive = true := by
  cases x <;> simp [isRecord] at h
  rename_i fields
  exact ⟨rfl, h⟩

theorem dedupFrom_cons_seen (seen : List JsVal) (x : JsVal) (rest : List JsVal)
    (hprim : (idDrinkOf x).isPrimitive = true) (hseen : idDrinkOf x ∈ seen) :
    dedupFrom seen (x :: rest) = dedupFrom seen rest := by
  have : setHas seen (idDrinkOf x) = true := (setHas_iff _ _ hprim).mpr hseen
  simp [dedupFrom, this]

theorem dedupFrom_cons_new (seen : List JsVal) (x : JsVal) (rest : List JsVal)
    (hprim : (idDrinkOf x).isPrimitive = true) (hnew : idDrinkOf x ∉ seen) :
    dedupFrom seen (x :: rest) = x :: dedupFrom (seen ++ [idDrinkOf x]) rest := by
  have : setHas seen (idDrinkOf x) = false := by
    cases h : setHas seen (idDrinkOf x) with
    | false => rfl
    | true => exact absurd ((setHas_iff _ _ hprim).mp h) hnew
  simp [dedupFrom, this]

/-- What is kept is an item of the list whose identifier was not seen before. -/
theorem mem_dedupFrom (seen l : List JsVal)
    (hprim : ∀ x ∈ l, (idDrinkOf x).isPrimitive = true) (y : JsVal)
    (hy : y ∈ dedupFrom seen l) : y ∈ l ∧ idDrinkOf y ∉ seen := by
  induction l generalizing seen with
  | nil => simp [dedupFrom] at hy
  | cons x rest ih =>
    have hx := hprim x (by simp)
    have hrest : ∀ z ∈ rest, (idDrinkOf z).isPrimitive = true :=
      fun z hz => hprim z (List.mem_cons_of_mem _ hz)
    by_cases hseen : idDrinkOf x ∈ seen
    · rw [dedupFrom_cons_seen seen x rest hx hseen] at hy
      obtain ⟨h1, h2⟩ := ih seen hrest hy
      exact ⟨List.mem_cons_of_mem _ h1, h2⟩
    · rw [dedupFrom_cons_new seen x rest hx hseen] at hy
      rcases List.mem_cons.mp hy with h | h
      · subst h
        exact ⟨by simp, hseen⟩
      · obtain ⟨h1, h2⟩ := ih _ hrest h
        exact ⟨List.mem_cons_of_mem _ h1, fun hin => h2 (by simp [hin])⟩

/-- The identifiers of what is kept are pairwise different. -/
theorem nodup_dedupFrom (seen l : List JsVal)
    (hprim : ∀ x ∈ l, (idDrinkOf x).isPrimitive = true) :
    ((dedupFrom seen l).map idDrinkOf).Nodup := by
  induction l generalizing seen with
  | nil => simp [dedupFrom]
  | cons x rest ih =>
    have hx := hprim x (by simp)
    have hrest : ∀ z ∈ rest, (idDrinkOf z).isPrimitive = true :=
      fun z hz => hprim z (List.mem_cons_of_mem _ hz)
    by_cases hseen : idDrinkOf x ∈ seen
    · rw [dedupFrom_cons_seen seen x rest hx hseen]
      exact ih seen hrest
    · rw [dedupFrom_cons_new seen x rest hx hseen, List.map_cons, List.nodup_cons]
      refine ⟨?_, ih _ hrest⟩
      intro hin
      obtain ⟨y, hy, hid⟩ := List.mem_map.mp hin
      have := (mem_dedupFrom _ rest hrest y hy).2
      exact this (by simp [hid])

/-- Every identifier of the list was seen before or is the identifier of something
kept. -/
theorem covered_dedupFrom (seen l : List JsVal)
    (hprim : ∀ x ∈ l, (idDrinkOf x).isPrimitive = true) (x : JsVal) (hx : x ∈ l) :
    idDrinkOf x ∈ seen ∨ ∃ y ∈ dedupFrom seen l, idDrinkOf y = idDrinkOf x := by
  induction l generalizing seen with
  | nil => simp at hx
  | cons a rest ih =>
    have ha := hprim a (by simp)
    have hrest : ∀ z ∈ rest, (idDrinkOf z).isPrimitive = true :=
      fun z hz => hprim z (List.mem_cons_of_mem _ hz)
    by_cases hseen : idDrinkOf a ∈ seen
    · rw [dedupFrom_cons_seen seen a rest ha hseen]
      rcases List.mem_cons.mp hx with h | h
      · subst h
        exact Or.inl hseen
      · exact ih seen hrest h
    · rw [dedupFrom_cons_new seen a rest ha hseen]
      rcases List.mem_cons.mp hx with h | h
      · subst h
        exact Or.inr ⟨x, by simp, rfl⟩
      · rcases ih (seen ++ [idDrinkOf a]) hrest h with h2 | ⟨y, hy, hid⟩
        · rcases List.mem_append.mp h2 with h3 | h3
          · exact Or.inl h3
          · have : idDrinkOf x = idDrinkOf a := by simpa using h3
            exact Or.inr ⟨a, by simp, this.symm⟩
        · exact Or.inr ⟨y, List.mem_cons_of_mem _ hy, hid⟩

/-- What is kept is kept in the order of the list. -/
theorem sublist_dedupFrom (seen l : List JsVal) : (dedupFrom seen l).Sublist l := by
  induction l generalizing seen with
  | nil => simp [dedupFrom]
  | cons x rest ih =>
    unfold dedupFrom
    split
    · exact List.Sublist.cons _ (ih seen)
    · exact List.Sublist.cons₂ _ (ih _)

/-- What is kept is the first item of the list with its identifier. -/
theorem first_dedupFrom (seen l : List JsVal)
    (hprim : ∀ x ∈ l, (idDrinkOf x).isPrimitive = true) (y : JsVal)
    (hy : y ∈ dedupFrom seen l) :
    ∃ before after, l = before ++ y :: after ∧ ∀ x ∈ before, idDrinkOf x ≠ idDrinkOf y := by
  induction l generalizing seen with
  | nil => simp [dedupFrom] at hy
  | cons a rest ih =>
    have ha := hprim a (by simp)
    have hrest : ∀ z ∈ rest, (idDrinkOf z).isPrimitive = true :=
      fun z hz => hprim z (List.mem_cons_of_mem _ hz)
    by_cases hseen : idDrinkOf a ∈ seen
    · rw [dedupFrom_cons_seen seen a rest ha hseen] at hy
      obtain ⟨before, after, hsplit, hfirst⟩ := ih seen hrest hy
      have hnot := (mem_dedupFrom seen rest hrest y hy).2
      refine ⟨a :: before, after, by simp [hsplit], ?_⟩
      intro x hx
      rcases List.mem_cons.mp hx with h | h
      · subst h
        exact fun heq => hnot (heq ▸ hseen)
      · exact hfirst x h
    · rw [dedupFrom_cons_new seen a rest ha hseen] at hy
      rcases List.mem_cons.mp hy with h | h
      · subst h
        exact ⟨[], rest, rfl, by simp⟩
      · obtain ⟨before, after, hsplit, hfirst⟩ := ih _ hrest h
        have hnot := (mem_dedupFrom _ rest hrest y h).2
        refine ⟨a :: before, after, by simp [hsplit], ?_⟩
        intro x hx
        rcases List.mem_cons.mp hx with h2 | h2
        · subst h2
          exact fun heq => hnot (by simp [heq])
        · exact hfirst x h2

theorem dedupFrom_cons (seen : List JsVal) (x : JsVal) (rest : List JsVal) :
    dedupFrom seen (x :: rest)
      = if setHas seen (idDrinkOf x) then dedupFrom seen rest
        else x :: dedupFrom (seen ++ [idDrinkOf x]) rest := rfl

theorem addDrinks_cons (acc : Collected) (x : JsVal) (rest : List JsVal) :
    addDrinks acc (x :: rest)
      = match addDrink acc x with
        | Except.ok acc2 => addDrinks acc2 rest
        | Except.error _ => acc := rfl

theorem dedupFrom_append (seen l1 l2 : List JsVal) :
    dedupFrom seen (l1 ++ l2)
      = dedupFrom seen l1 ++ dedupFrom (seen ++ (dedupFrom seen l1).map idDrinkOf) l2 := by
  induction l1 generalizing seen with
  | nil => simp [dedupFrom]
  | cons x rest ih =>
    rw [List.cons_append, dedupFrom_cons, dedupFrom_cons]
    cases setHas seen (idDrinkOf x) with
    | true => simpa using ih seen
    | false => simp [ih, List.append_assoc]

/-- On a list of records the inner loop never throws: it appends the
de-duplication of the list to what was collected. -/
theorem addDrinks_records (acc : Collected) (items : List JsVal)
    (hrec : ∀ x ∈ items, isRecord x = true) :
    addDrinks acc items
      = { allDrinks := acc.allDrinks ++ dedupFrom acc.uniqueIds items,
          uniqueIds := acc.uniqueIds ++ (dedupFrom acc.uniqueIds items).map idDrinkOf } := by
  induction items generalizing acc with
  | nil => simp [addDrinks, dedupFrom]
  | cons x rest ih =>
    have hx := getProp_of_isRecord x (hrec x (by simp))
    have hrest : ∀ z ∈ rest, isRecord z = true :=
      fun z hz => hrec z (List.mem_cons_of_mem _ hz)
    rw [addDrinks_cons, dedupFrom_cons]
    cases hhas : setHas acc.uniqueIds (idDrinkOf x) with
    | true =>
      simp only [addDrink, hx.1, hhas, if_true]
      exact ih acc hrest
    | false =>
      simp only [addDrink, hx.1, hhas, Bool.false_eq_true, if_false]
      rw [ih _ hrest]
      simp [List.append_assoc]

theorem itemsOf_of_isRecordList (o : Except String JsVal) (h : isRecordList o = true) :
    o = Except.ok (JsVal.arr (itemsOf o)) ∧ ∀ x ∈ itemsOf o, isRecord x = true := by
  cases o with
  | error e => simp [isRecordList] at h
  | ok v =>
    cases v <;> simp [isRecordList] at h
    rename_i items
    exact ⟨rfl, h⟩

/-- When every lookup yields a list of records, every fetched drink is a record. -/
theorem fetchedDrinks_records (api : ApiEnv) (tick : Nat) (names : List String)
    (hrec : ∀ o ∈ lookups api tick names, isRecordList o = true) :
    ∀ x ∈ fetchedDrinks api tick names, isRecord x = true := by
  induction names generalizing tick with
  | nil => simp [fetchedDrinks]
  | cons n rest ih =>
    intro x hx
    rcases List.mem_append.mp hx with h | h
    · exact (itemsOf_of_isRecordList _ (hrec _ (by simp [lookups]))).2 x h
    · exact ih (tick + 1) (fun o ho => hrec o (by simp [lookups, ho])) x h

/-- When every lookup yields a list of records, the loops of `fetchDrinksList`
append the de-duplication of the fetched drinks to what was collected. -/
theorem collectNames_records (api : ApiEnv) (tick : Nat) (acc : Collected)
    (names : List String) (hrec : ∀ o ∈ lookups api tick names, isRecordList o = true) :
    collectNames api tick acc names
      = { allDrinks := acc.allDrinks ++ dedupFrom acc.uniqueIds (fetchedDrinks api tick names),
          uniqueIds := acc.uniqueIds
            ++ (dedupFrom acc.uniqueIds (fetchedDrinks api tick names)).map idDrinkOf } := by
  induction names generalizing tick acc with
  | nil => simp [collectNames, fetchedDrinks, dedupFrom]
  | cons n rest ih =>
    obtain ⟨ho, hitems⟩ := itemsOf_of_isRecordList (fetchDrinkByName api tick n)
      (hrec _ (by simp [lookups]))
    have hstep : collectName api tick acc n
        = addDrinks acc (itemsOf (fetchDrinkByName api tick n)) := by
      unfold collectName
      rw [ho]
      rfl
    have hrest : ∀ o ∈ lookups api (tick + 1) rest, isRecordList o = true :=
      fun o h => hrec o (by simp [lookups, h])
    show collectNames api (tick + 1) (collectName api tick acc n) rest = _
    rw [hstep, addDrinks_records acc _ hitems, ih (tick + 1) _ hrest]
    show _ = ({ allDrinks := acc.allDrinks ++ dedupFrom acc.uniqueIds
                  (itemsOf (fetchDrinkByName api tick n) ++ fetchedDrinks api (tick + 1) rest),
                uniqueIds := acc.uniqueIds ++ (dedupFrom acc.uniqueIds
                  (itemsOf (fetchDrinkByName api tick n)
                    ++ fetchedDrinks api (tick + 1) rest)).map idDrinkOf } : Collected)
    rw [dedupFrom_append]
    simp [List.append_assoc]

/-- When every lookup yields a list of records, `fetchDrinksList` returns the
de-duplication of the fetched drinks. -/
theorem fetchDrinksList_eq_dedupFrom (api : ApiEnv) (names : List String)
    (hrec : ∀ o ∈ lookups api 0 names, isRecordList o = true) :
    fetchDrinksList api names = dedupFrom [] (fetchedDrinks api 0 names) := by
  unfold fetchDrinksList
  rw [collectNames_records api 0 _ names hrec]
  simp

/-! ## Theorems: the API module -/

/-- C16 as stated fails: the response is ok and its body parses, with the string
`no data found` under `drinks`; `fetchDrinkByName` returns that string, which is
not a list. -/
theorem fetchDrinkByName_returns_non_list :
    fetchDrinkByName (constantApi (drinksReply (JsVal.str "no data found"))) 0 "mojito"
      = Except.ok (JsVal.str "no data found")
    ∧ (JsVal.str "no data found").isArray = false :=
  ⟨rfl, rfl⟩

/-- C16, amended: `fetchDrinkByName` never throws. On a transport failure, a
status that is not ok, a body that does not parse, a parsed body on which reading
`drinks` throws (`null`), and a body without `drinks` or with a falsy value under
it (`null`, `false`, `0`, the empty string), the result is the empty list. When the
response is ok and the parsed body has a list under `drinks`, the result is that
list. Any other truthy value under `drinks` is returned as it is, so the result is
then not a list. -/
theorem fetchDrinkByName_outcomes (api : ApiEnv) (tick : Nat) (drinkName : String) :
    (∃ value, fetchDrinkByName api tick drinkName = Except.ok value)
    ∧ (∀ error, api.fetch tick (proxyUrl api drinkName) = Except.error error →
        fetchDrinkByName api tick drinkName = Except.ok (JsVal.arr []))
    ∧ (∀ response, api.fetch tick (proxyUrl api drinkName) = Except.ok response →
        (response.ok = false → fetchDrinkByName api tick drinkName = Except.ok (JsVal.arr []))
        ∧ (response.ok = true → response.json = none →
            fetchDrinkByName api tick drinkName = Except.ok (JsVal.arr []))
        ∧ (∀ data, response.ok = true → response.json = some data →
            (∀ error, getProp data "drinks" = Except.error error →
              fetchDrinkByName api tick drinkName = Except.ok (JsVal.arr []))
            ∧ (∀ drinks, getProp data "drinks" = Except.ok drinks →
                (drinks.truthy = false →
                  fetchDrinkByName api tick drinkName = Except.ok (JsVal.arr []))
                ∧ (drinks.truthy = true →
                  fetchDrinkByName api tick drinkName = Except.ok drinks)
                ∧ (∀ items, drinks = JsVal.arr items →
                  fetchDrinkByName api tick drinkName = Except.ok (JsVal.arr items))
                ∧ (drinks = JsVal.undefined ∨ drinks = JsVal.null →
                  fetchDrinkByName api tick drinkName = Except.ok (JsVal.arr []))))) := by
  refine ⟨?_, ?_, ?_⟩
  · unfold fetchDrinkByName
    cases fetchDrinkByNameTry api tick drinkName with
    | ok v => exact ⟨v, rfl⟩
    | error e => exact ⟨JsVal.arr [], rfl⟩
  · intro error hf
    simp [fetchDrinkByName, fetchDrinkByNameTry, hf]
  · intro response hf
    refine ⟨?_, ?_, ?_⟩
    · intro hok
      simp [fetchDrinkByName, fetchDrinkByNameTry, hf, hok]
    · intro hok hjson
      simp [fetchDrinkByName, fetchDrinkByNameTry, hf, hok, hjson]
    · intro data hok hjson
      refine ⟨?_, ?_⟩
      · intro error hprop
        simp [fetchDrinkByName, fetchDrinkByNameTry, hf, hok, hjson, hprop]
      · intro drinks hprop
        have htrue : drinks.truthy = true →
            fetchDrinkByName api tick drinkName = Except.ok drinks := by
          intro ht
          simp [fetchDrinkByName, fetchDrinkByNameTry, hf, hok, hjson, hprop, ht]
        have hfalse : drinks.truthy = false →
            fetchDrinkByName api tick drinkName = Except.ok (JsVal.arr []) := by
          intro ht
          simp [fetchDrinkByName, fetchDrinkByNameTry, hf, hok, hjson, hprop, ht]
        refine ⟨hfalse, htrue, ?_, ?_⟩
        · intro items hitems
          subst hitems
          exact htrue rfl
        · intro hnone
          rcases hnone with h | h <;> subst h <;> exact hfalse rfl

/-- C19 as stated fails: the one lookup yields a list with a `null` between two
records; reading `idDrink` of `null` throws, the throw is caught by the outer loop
body, and the record after it, with its `idDrink`, never reaches the result. -/
theorem fetchDrinksList_stops_at_null :
    lookups (constantApi (drinksReply (JsVal.arr
        [drinkRecord "1" "Mojito", JsVal.null, drinkRecord "2" "Daiquiri"]))) 0 ["rum"]
      = [Except.ok (JsVal.arr
          [drinkRecord "1" "Mojito", JsVal.null, drinkRecord "2" "Daiquiri"])]
    ∧ fetchDrinksList (constantApi (drinksReply (JsVal.arr
        [drinkRecord "1" "Mojito", JsVal.null, drinkRecord "2" "Daiquiri"]))) ["rum"]
      = [drinkRecord "1" "Mojito"]
    ∧ idDrinkOf (drinkRecord "2" "Daiquiri") = JsVal.str "2"
    ∧ (fetchDrinksList (constantApi (drinksReply (JsVal.arr
        [drinkRecord "1" "Mojito", JsVal.null, drinkRecord "2" "Daiquiri"]))) ["rum"]).map
          idDrinkOf = [JsVal.str "1"] :=
  ⟨rfl, rfl, rfl, rfl⟩

/-- C19, amended: when every lookup yields a list of records (objects whose
`idDrink` is a primitive value or absent), `fetchDrinksList` returns the
order-preserving de-duplication by `idDrink` of the concatenation of the per-name
results: no two records of the result share an `idDrink`, every `idDrink` of a
fetched record is the `idDrink` of a record of the result, the result keeps the
lookup order, each record kept is the first fetched one with its `idDrink`, and
the result is empty when every lookup yields the empty list. -/
theorem fetchDrinksList_dedup (api : ApiEnv) (names : List String)
    (hrec : ∀ o ∈ lookups api 0 names, isRecordList o = true) :
    ((fetchDrinksList api names).map idDrinkOf).Nodup
    ∧ (∀ x ∈ fetchedDrinks api 0 names,
        ∃ y ∈ fetchDrinksList api names, idDrinkOf y = idDrinkOf x)
    ∧ (fetchDrinksList api names).Sublist (fetchedDrinks api 0 names)
    ∧ (∀ y ∈ fetchDrinksList api names, ∃ before after,
        fetchedDrinks api 0 names = before ++ y :: after
        ∧ ∀ x ∈ before, idDrinkOf x ≠ idDrinkOf y)
    ∧ ((∀ o ∈ lookups api 0 names, o = Except.ok (JsVal.arr [])) →
        fetchDrinksList api names = []) := by
  have heq := fetchDrinksList_eq_dedupFrom api names hrec
  have hprim : ∀ x ∈ fetchedDrinks api 0 names, (idDrinkOf x).isPrimitive = true :=
    fun x hx => (getProp_of_isRecord x (fetchedDrinks_records api 0 names hrec x hx)).2
  rw [heq]
  refine ⟨nodup_dedupFrom _ _ hprim, ?_, sublist_dedupFrom _ _, ?_, ?_⟩
  · intro x hx
    rcases covered_dedupFrom [] _ hprim x hx with h | h
    · simp at h
    · exact h
  · intro y hy
    exact first_dedupFrom [] _ hprim y hy
  · intro hempty
    have hnone : ∀ (tick : Nat) (l : List String),
        (∀ o ∈ lookups api tick l, o = Except.ok (JsVal.arr [])) →
        fetchedDrinks api tick l = [] := by
      intro tick l
      induction l generalizing tick with
      | nil => intro _; rfl
      | cons n rest ih =>
        intro h
        have h1 : fetchDrinkByName api tick n = Except.ok (JsVal.arr []) :=
          h _ (by simp [lookups])
        have h2 := ih (tick + 1) (fun o ho => h o (by simp [lookups, ho]))
        simp [fetchedDrinks, h1, h2, itemsOf]
    rw [hnone 0 names hempty]
    rfl

theorem fetchDrinksList_dedup_witness :
    fetchDrinksList (constantApi (drinksReply (JsVal.arr
        [drinkRecord "1" "Mojito", drinkRecord "2" "Daiquiri", drinkRecord "1" "Mojito twist"])))
        ["rum", "lime"]
      = [drinkRecord "1" "Mojito", drinkRecord "2" "Daiquiri"]
    ∧ ((fetchDrinksList (constantApi (drinksReply (JsVal.arr
        [drinkRecord "1" "Mojito", drinkRecord "2" "Daiquiri", drinkRecord "1" "Mojito twist"])))
        ["rum", "lime"]).map idDrinkOf).Nodup :=
  ⟨rfl,
   (fetchDrinksList_dedup (constantApi (drinksReply (JsVal.arr
        [drinkRecord "1" "Mojito", drinkRecord "2" "Daiquiri", drinkRecord "1" "Mojito twist"])))
        ["rum", "lime"] (by decide)).1⟩

end DrinkMaster


